import Mathlib

/-!
# Verification of the BitBox02 Bitcoin transaction-signing orchestrator

Shallow embedding of `src/rust/bitbox02-rust/src/hww/api/bitcoin/signtx.rs`:
the streaming request/response protocol that ingests a Bitcoin transaction,
verifies each input's previous transaction (double-SHA256 txid and output
value), obtains user consent, and emits one signature per input.

Bytes are modelled as `Nat` (each < 256), byte strings as `List Nat`.
Machine-integer wraparound is irrelevant here: every arithmetic operation the
orchestrator performs on protocol integers stays within the source types'
ranges, and hashing is defined with explicit `% 2^32` reductions.
-/

set_option maxRecDepth 100000
set_option maxHeartbeats 4000000

deriving instance DecidableEq for Except

namespace Signtx

/-! ## Byte-level encodings -/

/-- Truncate to a 32-bit word. -/
def w32 (x : Nat) : Nat := x % 4294967296

/-- Little-endian 16-bit encoding (2 bytes). -/
def le16 (x : Nat) : List Nat :=
  [x &&& 255, (x >>> 8) &&& 255]

/-- Little-endian 32-bit encoding (4 bytes), as produced by `u32::to_le_bytes`. -/
def le32 (x : Nat) : List Nat :=
  [x &&& 255, (x >>> 8) &&& 255, (x >>> 16) &&& 255, (x >>> 24) &&& 255]

/-- Little-endian 64-bit encoding (8 bytes), as produced by `u64::to_le_bytes`. -/
def le64 (x : Nat) : List Nat :=
  [x &&& 255, (x >>> 8) &&& 255, (x >>> 16) &&& 255, (x >>> 24) &&& 255,
   (x >>> 32) &&& 255, (x >>> 40) &&& 255, (x >>> 48) &&& 255, (x >>> 56) &&& 255]

/-- Big-endian 32-bit encoding (4 bytes). -/
def be32 (x : Nat) : List Nat :=
  [(x >>> 24) &&& 255, (x >>> 16) &&& 255, (x >>> 8) &&& 255, x &&& 255]

/-- Big-endian 64-bit encoding (8 bytes). -/
def be64 (x : Nat) : List Nat :=
  [(x >>> 56) &&& 255, (x >>> 48) &&& 255, (x >>> 40) &&& 255, (x >>> 32) &&& 255,
   (x >>> 24) &&& 255, (x >>> 16) &&& 255, (x >>> 8) &&& 255, x &&& 255]

/-- Modelled from the spec: the Bitcoin `CompactSize` varint encoding
("Varints follow the Bitcoin convention (1/3/5/9-byte encoding)").  The
implementation lives in `super::script::serialize_varint`, which is not part
of the sources under review. -/
def serialize_varint (v : Nat) : List Nat :=
  if v < 0xfd then [v]
  else if v < 0x10000 then 0xfd :: le16 v
  else if v < 0x100000000 then 0xfe :: le32 v
  else 0xff :: le64 v

/-! ## SHA-256

The orchestrator uses the `sha2` crate's standard SHA-256.  We embed the
(FIPS 180-4) algorithm directly so that txids are computed, not stubbed. -/

/-- The 64 SHA-256 round constants. -/
def sha256K : List Nat :=
  [0x428a2f98, 0x71374491, 0xb5c0fbcf, 0xe9b5dba5, 0x3956c25b, 0x59f111f1,
   0x923f82a4, 0xab1c5ed5] ++
  [0xd807aa98, 0x12835b01, 0x243185be, 0x550c7dc3, 0x72be5d74, 0x80deb1fe,
   0x9bdc06a7, 0xc19bf174] ++
  [0xe49b69c1, 0xefbe4786, 0x0fc19dc6, 0x240ca1cc, 0x2de92c6f, 0x4a7484aa,
   0x5cb0a9dc, 0x76f988da] ++
  [0x983e5152, 0xa831c66d, 0xb00327c8, 0xbf597fc7, 0xc6e00bf3, 0xd5a79147,
   0x06ca6351, 0x14292967] ++
  [0x27b70a85, 0x2e1b2138, 0x4d2c6dfc, 0x53380d13, 0x650a7354, 0x766a0abb,
   0x81c2c92e, 0x92722c85] ++
  [0xa2bfe8a1, 0xa81a664b, 0xc24b8b70, 0xc76c51a3, 0xd192e819, 0xd6990624,
   0xf40e3585, 0x106aa070] ++
  [0x19a4c116, 0x1e376c08, 0x2748774c, 0x34b0bcb5, 0x391c0cb3, 0x4ed8aa4a,
   0x5b9cca4f, 0x682e6ff3] ++
  [0x748f82ee, 0x78a5636f, 0x84c87814, 0x8cc70208, 0x90befffa, 0xa4506ceb,
   0xbef9a3f7, 0xc67178f2]

/-- The SHA-256 initial hash state. -/
def sha256Init : List Nat :=
  [0x6a09e667, 0xbb67ae85, 0x3c6ef372, 0xa54ff53a,
   0x510e527f, 0x9b05688c, 0x1f83d9ab, 0x5be0cd19]

/-- Right rotation of a 32-bit word. -/
def rotr32 (n x : Nat) : Nat := w32 ((x >>> n) ||| (x <<< (32 - n)))

/-- SHA-256 lowercase sigma 0. -/
def ssig0 (x : Nat) : Nat := rotr32 7 x ^^^ rotr32 18 x ^^^ (x >>> 3)

/-- SHA-256 lowercase sigma 1. -/
def ssig1 (x : Nat) : Nat := rotr32 17 x ^^^ rotr32 19 x ^^^ (x >>> 10)

/-- SHA-256 uppercase Sigma 0. -/
def bsig0 (x : Nat) : Nat := rotr32 2 x ^^^ rotr32 13 x ^^^ rotr32 22 x

/-- SHA-256 uppercase Sigma 1. -/
def bsig1 (x : Nat) : Nat := rotr32 6 x ^^^ rotr32 11 x ^^^ rotr32 25 x

/-- SHA-256 choice function (the complement is taken within 32 bits). -/
def chf (x y z : Nat) : Nat := (x &&& y) ^^^ ((x ^^^ 0xffffffff) &&& z)

/-- SHA-256 majority function. -/
def majf (x y z : Nat) : Nat := (x &&& y) ^^^ (x &&& z) ^^^ (y &&& z)

/-- Group a byte list into big-endian 32-bit words. -/
def bytesToWordsBE : List Nat → List Nat
  | b0 :: b1 :: b2 :: b3 :: rest =>
      (b0 <<< 24 ||| b1 <<< 16 ||| b2 <<< 8 ||| b3) :: bytesToWordsBE rest
  | _ => []

/-- Extend the 16 message words by `remaining` further schedule words. -/
def scheduleGo (ws : List Nat) : Nat → List Nat
  | 0 => ws
  | r + 1 =>
      let n := ws.length
      let wt := w32 (ssig1 (ws.getD (n - 2) 0) + ws.getD (n - 7) 0 +
        ssig0 (ws.getD (n - 15) 0) + ws.getD (n - 16) 0)
      scheduleGo (ws ++ [wt]) r

/-- The 64 rounds of the SHA-256 compression function. -/
def compressGo : List Nat → List Nat → List Nat → List Nat
  | k :: ks, w :: ws, [a, b, c, d, e, f, g, h] =>
      let t1 := w32 (h + bsig1 e + chf e f g + k + w)
      let t2 := w32 (bsig0 a + majf a b c)
      compressGo ks ws [w32 (t1 + t2), a, b, c, w32 (d + t1), e, f, g]
  | _, _, hs => hs

/-- Process `n` 64-byte blocks of `bytes`, starting from hash state `hs`. -/
def processBlocks : Nat → List Nat → List Nat → List Nat
  | 0, hs, _ => hs
  | n + 1, hs, bytes =>
      let ws := scheduleGo (bytesToWordsBE (bytes.take 64)) 48
      let comp := compressGo sha256K ws hs
      processBlocks n ((hs.zip comp).map fun p => w32 (p.1 + p.2)) (bytes.drop 64)

/-- SHA-256 padding: a 0x80 byte, zeros to 56 mod 64, and the bit length
as a big-endian 64-bit integer. -/
def sha256Pad (msg : List Nat) : List Nat :=
  let l := msg.length
  msg ++ [0x80] ++ List.replicate ((119 - l % 64) % 64) 0 ++ be64 (8 * l)

/-- SHA-256 of a byte list, as a 32-byte list. -/
def sha256 (msg : List Nat) : List Nat :=
  let padded := sha256Pad msg
  ((processBlocks (padded.length / 64) sha256Init padded).map be32).flatten

/-- Double SHA-256, as used for Bitcoin txids. -/
def dsha256 (msg : List Nat) : List Nat := sha256 (sha256 msg)

/-- Sanity check against the FIPS 180-4 test vector SHA-256("abc"). -/
theorem sha256_abc :
    sha256 [0x61, 0x62, 0x63] =
      [0xba, 0x78, 0x16, 0xbf, 0x8f, 0x01, 0xcf, 0xea, 0x41, 0x41, 0x40, 0xde,
       0x5d, 0xae, 0x22, 0x23, 0xb0, 0x03, 0x61, 0xa3, 0x96, 0x17, 0x7a, 0x9c,
       0xb4, 0x10, 0xff, 0x61, 0xf2, 0x00, 0x15, 0xad] := by decide

/-- Sanity check: SHA-256 of the empty string. -/
theorem sha256_empty :
    sha256 [] =
      [0xe3, 0xb0, 0xc4, 0x42, 0x98, 0xfc, 0x1c, 0x14, 0x9a, 0xfb, 0xf4, 0xc8,
       0x99, 0x6f, 0xb9, 0x24, 0x27, 0xae, 0x41, 0xe4, 0x64, 0x9b, 0x93, 0x4c,
       0xa4, 0x95, 0x99, 0x1b, 0x78, 0x52, 0xb8, 0x55] := by decide

/-! ## Protocol data model

The protobuf messages, restricted to the fields `signtx.rs` reads.  Multi-byte
integers are `Nat`; the protobuf decoder guarantees they are in `u32`/`u64`
range, and the orchestrator performs no arithmetic that could overflow them. -/

/-- `pb::BtcSignInputRequest`. -/
structure BtcSignInputRequest where
  prev_out_hash : List Nat
  prev_out_index : Nat
  prev_out_value : Nat
  sequence : Nat
  keypath : List Nat
  script_config_index : Nat
  host_nonce_commitment : Option (List Nat)
deriving DecidableEq

/-- `pb::BtcPrevTxInitRequest`. -/
structure BtcPrevTxInitRequest where
  version : Nat
  num_inputs : Nat
  num_outputs : Nat
  locktime : Nat
deriving DecidableEq

/-- `pb::BtcPrevTxInputRequest`. -/
structure BtcPrevTxInputRequest where
  prev_out_hash : List Nat
  prev_out_index : Nat
  signature_script : List Nat
  sequence : Nat
deriving DecidableEq

/-- `pb::BtcPrevTxOutputRequest`. -/
structure BtcPrevTxOutputRequest where
  value : Nat
  pubkey_script : List Nat
deriving DecidableEq

/-- `pb::BtcSignOutputRequest`. -/
structure BtcSignOutputRequest where
  ours : Bool
  type : Nat
  value : Nat
  payload : List Nat
  keypath : List Nat
  script_config_index : Nat
deriving DecidableEq

/-- `pb::BtcSignInitRequest`.  The `script_configs` list is consumed only by
the opaque native `sign_init` validator and is therefore not enumerated
field-by-field here; the orchestrator itself reads only the counts. -/
structure BtcSignInitRequest where
  coin : Nat
  version : Nat
  num_inputs : Nat
  num_outputs : Nat
  locktime : Nat
deriving DecidableEq

/-- `pb::AntiKleptoSignatureRequest`. -/
structure AntiKleptoSignatureRequest where
  host_nonce : List Nat
deriving DecidableEq

/-- `pb::AntiKleptoSignerCommitment`. -/
structure AntiKleptoSignerCommitment where
  commitment : List Nat
deriving DecidableEq

/-- Modelled from the spec: the numeric values of the protobuf enum
`BTCSignNextResponse.Type` (`Input, Output, Done, PrevtxInit, PrevtxInput,
PrevtxOutput, HostNonce`); the `.proto` schema is not among the sources under
review.  Only distinctness and `Input = 0` (the reset default) matter below. -/
def NextType.input : Nat := 0

/-- `BTCSignNextResponse.Type.OUTPUT`. -/
def NextType.output : Nat := 1

/-- `BTCSignNextResponse.Type.DONE`. -/
def NextType.done : Nat := 2

/-- `BTCSignNextResponse.Type.PREVTX_INIT`. -/
def NextType.prevtxInit : Nat := 3

/-- `BTCSignNextResponse.Type.PREVTX_INPUT`. -/
def NextType.prevtxInput : Nat := 4

/-- `BTCSignNextResponse.Type.PREVTX_OUTPUT`. -/
def NextType.prevtxOutput : Nat := 5

/-- `BTCSignNextResponse.Type.HOST_NONCE`. -/
def NextType.hostNonce : Nat := 6

/-- `pb::BtcSignNextResponse` — the hint sent to the host before each
round-trip.  `type` holds the raw enum value (`r#type` in the source). -/
structure BtcSignNextResponse where
  type : Nat
  index : Nat
  has_signature : Bool
  signature : List Nat
  prev_index : Nat
  anti_klepto_signer_commitment : Option AntiKleptoSignerCommitment
deriving DecidableEq

/-- The default `BtcSignNextResponse`, to which the hint is reset after each
host round-trip. -/
def defaultNext : BtcSignNextResponse :=
  { type := 0, index := 0, has_signature := false, signature := [],
    prev_index := 0, anti_klepto_signer_commitment := none }

/-- The `pb::btc_request::Request` variants the orchestrator matches on;
`otherBtc` stands for every other variant of the real enum. -/
inductive BtcRequest where
  | prevtxInit (r : BtcPrevTxInitRequest)
  | prevtxInput (r : BtcPrevTxInputRequest)
  | prevtxOutput (r : BtcPrevTxOutputRequest)
  | antikleptoSignature (r : AntiKleptoSignatureRequest)
  | otherBtc
deriving DecidableEq

/-- The `pb::request::Request` variants the orchestrator matches on.  `btc`
carries `Option BtcRequest` because `pb::BtcRequest.request` is optional;
`other` stands for every other top-level variant. -/
inductive Request where
  | btcSignInput (r : BtcSignInputRequest)
  | btcSignOutput (r : BtcSignOutputRequest)
  | btc (r : Option BtcRequest)
  | other
deriving DecidableEq

/-- The `pb::btc_response::Response` variant the orchestrator emits. -/
inductive BtcResponse where
  | signNext (n : BtcSignNextResponse)
deriving DecidableEq

/-- The `pb::response::Response` variants the orchestrator emits: a bare
`SignNext` or one wrapped in a `BTCResponse` envelope. -/
inductive Response where
  | btcSignNext (n : BtcSignNextResponse)
  | btc (r : BtcResponse)
deriving DecidableEq

/-- The error kinds of `api::Error` that this module can produce or
propagate.  `generic` stands for transport-level failures surfaced by
`hww::next_request`. -/
inductive Error where
  | invalidInput
  | invalidState
  | userAbort
  | generic
deriving DecidableEq

/-- `NextResponse`: the hint plus the `wrap` envelope flag. -/
structure NextResponse where
  next : BtcSignNextResponse
  wrap : Bool
deriving DecidableEq

/-- `NextResponse::to_protobuf`: wrap in a `BTCResponse` envelope iff `wrap`. -/
def NextResponse.to_protobuf (r : NextResponse) : Response :=
  if r.wrap then Response.btc (BtcResponse.signNext r.next)
  else Response.btcSignNext r.next

/-! ## Effects and the session monad

The orchestrator is a linear workflow suspending only at host round-trips.
We embed it as explicit state passing: the state holds the host's pending
requests (consumed in order), the mutable `NextResponse`, and an append-only
trace of the observable effects (responses sent to the host, native signing
calls reached, toasts).  Trace entries for `prevtxVerified`, `outputConfirmed`
and `pass2Called` mark the corresponding program points being reached; they
let temporal ordering claims be stated. -/

/-- Observable events of a signing session. -/
inductive Event where
  | sent (r : Response)
  | prevtxVerified (i : Nat)
  | outputConfirmed (j : Nat) (last : Bool)
  | pass2Called (i : Nat)
  | signReset
  | toast (msg : String) (success : Bool)
deriving DecidableEq

/-- Session state: pending host requests, the `NextResponse`, the event
trace. -/
structure St where
  host : List Request
  resp : NextResponse
  trace : List Event
deriving DecidableEq

/-- The session monad: state passing with an `Except Error` result.  On an
error the state (in particular the trace) is retained. -/
def M (α : Type) : Type := St → Except Error α × St

instance : Monad M where
  pure a := fun st => (Except.ok a, st)
  bind m f := fun st =>
    match m st with
    | (Except.ok a, st1) => f a st1
    | (Except.error e, st1) => (Except.error e, st1)

/-- Fail with an error. -/
def throwE {α : Type} (e : Error) : M α := fun st => (Except.error e, st)

/-- Read the session state. -/
def getS : M St := fun st => (Except.ok st, st)

/-- Update the session state. -/
def modifyS (f : St → St) : M Unit := fun st => (Except.ok (), f st)

/-- Lift the result of a native call into the session. -/
def liftE {α : Type} (r : Except Error α) : M α := fun st => (r, st)

/-- Append an event to the trace. -/
def emit (e : Event) : M Unit := fun st =>
  (Except.ok (), { st with trace := st.trace ++ [e] })

theorem run_pure {α : Type} (a : α) (st : St) :
    (pure a : M α) st = (Except.ok a, st) := rfl

theorem run_bind {α β : Type} (m : M α) (f : α → M β) (st : St) :
    (m >>= f) st = match m st with
      | (Except.ok a, st1) => f a st1
      | (Except.error e, st1) => (Except.error e, st1) := rfl

theorem run_bind_ok {α β : Type} {m : M α} {st st1 : St} {a : α}
    (h : m st = (Except.ok a, st1)) (f : α → M β) :
    (m >>= f) st = f a st1 := by rw [run_bind, h]

theorem run_bind_error {α β : Type} {m : M α} {st st1 : St} {e : Error}
    (h : m st = (Except.error e, st1)) (f : α → M β) :
    (m >>= f) st = (Except.error e, st1) := by rw [run_bind, h]

/-- `hww::next_request`: send `r` to the host and wait for its next request.
Sending is recorded in the trace; an exhausted host stream models a transport
failure. -/
def next_request (r : Response) : M Request := fun st =>
  match st.host with
  | [] => (Except.error Error.generic, { st with trace := st.trace ++ [Event.sent r] })
  | req :: rest =>
      (Except.ok req, { st with host := rest, trace := st.trace ++ [Event.sent r] })

/-! ## The source functions -/

/-- `get_request`: stage type/index (and `prev_index` when given) on the hint,
send it, and reset the hint to default once the host's request is in. -/
def get_request (typ index : Nat) (prev_index : Option Nat) : M Request := do
  let st ← getS
  let next0 := { st.resp.next with type := typ, index := index }
  let next1 := match prev_index with
    | some p => { next0 with prev_index := p }
    | none => next0
  modifyS fun s => { s with resp := { s.resp with next := next1 } }
  let request ← next_request (NextResponse.to_protobuf { st.resp with next := next1 })
  modifyS fun s => { s with resp := { s.resp with next := defaultNext } }
  pure request

/-- `get_tx_input`. -/
def get_tx_input (index : Nat) : M BtcSignInputRequest := do
  let request ← get_request NextType.input index none
  modifyS fun s => { s with resp := { s.resp with wrap := false } }
  match request with
  | Request.btcSignInput r => pure r
  | _ => throwE Error.invalidState

/-- `get_prevtx_init` (including the source's redundant field writes before
the `get_request` call). -/
def get_prevtx_init (index : Nat) : M BtcPrevTxInitRequest := do
  modifyS fun s => { s with resp := { s.resp with
    next := { s.resp.next with type := NextType.prevtxInit, index := index } } }
  let request ← get_request NextType.prevtxInit index none
  modifyS fun s => { s with resp := { s.resp with wrap := true } }
  match request with
  | Request.btc (some (BtcRequest.prevtxInit r)) => pure r
  | _ => throwE Error.invalidState

/-- `get_prevtx_input`. -/
def get_prevtx_input (input_index prevtx_input_index : Nat) :
    M BtcPrevTxInputRequest := do
  let request ← get_request NextType.prevtxInput input_index (some prevtx_input_index)
  modifyS fun s => { s with resp := { s.resp with wrap := true } }
  match request with
  | Request.btc (some (BtcRequest.prevtxInput r)) => pure r
  | _ => throwE Error.invalidState

/-- `get_prevtx_output`. -/
def get_prevtx_output (output_index prevtx_output_index : Nat) :
    M BtcPrevTxOutputRequest := do
  let request ← get_request NextType.prevtxOutput output_index (some prevtx_output_index)
  modifyS fun s => { s with resp := { s.resp with wrap := true } }
  match request with
  | Request.btc (some (BtcRequest.prevtxOutput r)) => pure r
  | _ => throwE Error.invalidState

/-- `get_tx_output`. -/
def get_tx_output (index : Nat) : M BtcSignOutputRequest := do
  let request ← get_request NextType.output index none
  modifyS fun s => { s with resp := { s.resp with wrap := false } }
  match request with
  | Request.btcSignOutput r => pure r
  | _ => throwE Error.invalidState

/-- `get_antiklepto_host_nonce`. -/
def get_antiklepto_host_nonce (index : Nat) : M AntiKleptoSignatureRequest := do
  let request ← get_request NextType.hostNonce index none
  modifyS fun s => { s with resp := { s.resp with wrap := true } }
  match request with
  | Request.btc (some (BtcRequest.antikleptoSignature r)) => pure r
  | _ => throwE Error.invalidState

/-- The prevtx-input streaming loop of `handle_prevtx`, threading the byte
stream fed to the hasher (the source's incremental `hasher.update` calls are
modelled by accumulating the bytes; `ui::progress_set` is pure UI and has no
protocol-visible effect). -/
def prevtxInputsLoop (input_index : Nat) : Nat → Nat → List Nat → M (List Nat)
  | 0, _, acc => pure acc
  | r + 1, k, acc => do
      let prevtx_input ← get_prevtx_input input_index k
      prevtxInputsLoop input_index r (k + 1)
        (acc ++ prevtx_input.prev_out_hash ++ le32 prevtx_input.prev_out_index ++
         serialize_varint prevtx_input.signature_script.length ++
         prevtx_input.signature_script ++ le32 prevtx_input.sequence)

/-- The prevtx-output streaming loop of `handle_prevtx`: the value check at
`input.prev_out_index` comes before the output is fed to the hasher. -/
def prevtxOutputsLoop (input_index : Nat) (input : BtcSignInputRequest) :
    Nat → Nat → List Nat → M (List Nat)
  | 0, _, acc => pure acc
  | r + 1, k, acc => do
      let prevtx_output ← get_prevtx_output input_index k
      if k = input.prev_out_index ∧ input.prev_out_value ≠ prevtx_output.value then
        throwE Error.invalidInput
      else
        prevtxOutputsLoop input_index input r (k + 1)
          (acc ++ le64 prevtx_output.value ++
           serialize_varint prevtx_output.pubkey_script.length ++
           prevtx_output.pubkey_script)

/-- `handle_prevtx`: stream input `input_index`'s previous transaction,
recompute its txid and compare with `input.prev_out_hash`. -/
def handle_prevtx (input_index : Nat) (input : BtcSignInputRequest) : M Unit := do
  let prevtx_init ← get_prevtx_init input_index
  if prevtx_init.num_inputs < 1 ∨ prevtx_init.num_outputs < 1 then
    throwE Error.invalidInput
  else do
    let acc1 ← prevtxInputsLoop input_index prevtx_init.num_inputs 0
      (le32 prevtx_init.version ++ serialize_varint prevtx_init.num_inputs)
    let acc2 ← prevtxOutputsLoop input_index input prevtx_init.num_outputs 0
      (acc1 ++ serialize_varint prevtx_init.num_outputs)
    if dsha256 (acc2 ++ le32 prevtx_init.locktime) ≠ input.prev_out_hash then
      throwE Error.invalidInput
    else
      emit (Event.prevtxVerified input_index)

/-- The opaque native capabilities (keystore, `app_btc` signer, per spec §6).
The orchestrator treats them as black boxes; a run is parametric in them. -/
structure Env where
  keystore_locked : Bool
  sign_init : BtcSignInitRequest → Except Error Unit
  sign_input_pass1 : BtcSignInputRequest → Bool → Except Error Unit
  sign_output : BtcSignOutputRequest → Bool → Except Error Unit
  sign_input_pass2 : BtcSignInputRequest → Bool → Except Error (List Nat × List Nat)
  sign_antiklepto : AntiKleptoSignatureRequest → Except Error (List Nat)

/-- Pass 1 of `_process`: fetch each input, feed the native pass-1
accumulator, then stream and verify its previous transaction. -/
def pass1Loop (env : Env) (request : BtcSignInitRequest) : Nat → Nat → M Unit
  | 0, _ => pure ()
  | r + 1, input_index => do
      let tx_input ← get_tx_input input_index
      liftE (env.sign_input_pass1 tx_input (input_index == request.num_inputs - 1))
      handle_prevtx input_index tx_input
      pass1Loop env request r (input_index + 1)

/-- The output phase of `_process`: fetch each output and feed the native
output handler (which drives the confirmation UI; the progress-bar and
placeholder screen components are pure UI and not modelled). -/
def outputsLoop (env : Env) (request : BtcSignInitRequest) : Nat → Nat → M Unit
  | 0, _ => pure ()
  | r + 1, output_index => do
      let tx_output ← get_tx_output output_index
      liftE (env.sign_output tx_output (output_index == request.num_outputs - 1))
      emit (Event.outputConfirmed output_index (output_index == request.num_outputs - 1))
      outputsLoop env request r (output_index + 1)

/-- Pass 2 of `_process`: fetch each input again, sign it, run the
anti-klepto exchange when the host committed to a nonce, and stage the
signature on the hint for delivery with the next round-trip. -/
def pass2Loop (env : Env) (request : BtcSignInitRequest) : Nat → Nat → M Unit
  | 0, _ => pure ()
  | r + 1, input_index => do
      let tx_input ← get_tx_input input_index
      emit (Event.pass2Called input_index)
      let sigCom ← liftE (env.sign_input_pass2 tx_input
        (input_index == request.num_inputs - 1))
      if tx_input.host_nonce_commitment.isSome then do
        modifyS fun s => { s with resp := { s.resp with next := { s.resp.next with
          anti_klepto_signer_commitment := some { commitment := sigCom.2 } } } }
        let antiklepto_host_nonce ← get_antiklepto_host_nonce input_index
        let sig2 ← liftE (env.sign_antiklepto antiklepto_host_nonce)
        modifyS fun s => { s with resp := { s.resp with next := { s.resp.next with
          has_signature := true, signature := sig2 } } }
      else
        modifyS fun s => { s with resp := { s.resp with next := { s.resp.next with
          has_signature := true, signature := sigCom.1 } } }
      pass2Loop env request r (input_index + 1)

/-- The initial `NextResponse` allocated at orchestrator entry. -/
def initResponse : NextResponse := { next := defaultNext, wrap := false }

/-- `_process`: the full signing orchestrator (phases 0-4). -/
def _process (env : Env) (request : BtcSignInitRequest) : M Response := do
  if env.keystore_locked then
    throwE Error.invalidState
  else do
    liftE (env.sign_init request)
    modifyS fun s => { s with resp := initResponse }
    pass1Loop env request request.num_inputs 0
    outputsLoop env request request.num_outputs 0
    emit (Event.toast "Transaction\nconfirmed" true)
    pass2Loop env request request.num_inputs 0
    modifyS fun s => { s with resp := { s.resp with
      next := { s.resp.next with type := NextType.done } } }
    let st ← getS
    pure st.resp.to_protobuf

/-- `process`: run `_process`, always call the native `sign_reset`, and show
the "Transaction canceled" toast on user abort. -/
def process (env : Env) (request : BtcSignInitRequest) : M Response := fun st =>
  let res := _process env request st
  let st1 := { res.2 with trace := res.2.trace ++ [Event.signReset] }
  match res.1 with
  | Except.error Error.userAbort =>
      (res.1, { st1 with trace := st1.trace ++ [Event.toast "Transaction\ncanceled" false] })
  | _ => (res.1, st1)

/-! ## Canonical previous-transaction serialization (spec §6)

`version_LE32 ‖ varint(n_in) ‖ (prev_hash[32] ‖ prev_idx_LE32 ‖
varint(len(ss)) ‖ ss ‖ seq_LE32)×n_in ‖ varint(n_out) ‖ (value_LE64 ‖
varint(len(pk)) ‖ pk)×n_out ‖ locktime_LE32`. -/

/-- Legacy serialization of one previous-transaction input. -/
def serPrevtxInput (pin : BtcPrevTxInputRequest) : List Nat :=
  pin.prev_out_hash ++ le32 pin.prev_out_index ++
  serialize_varint pin.signature_script.length ++ pin.signature_script ++
  le32 pin.sequence

/-- Legacy serialization of one previous-transaction output. -/
def serPrevtxOutput (pout : BtcPrevTxOutputRequest) : List Nat :=
  le64 pout.value ++ serialize_varint pout.pubkey_script.length ++
  pout.pubkey_script

/-- The canonical legacy serialization of a previous transaction. -/
def prevtxSerialization (init : BtcPrevTxInitRequest)
    (ins : List BtcPrevTxInputRequest) (outs : List BtcPrevTxOutputRequest) :
    List Nat :=
  le32 init.version ++ serialize_varint init.num_inputs ++
  (ins.map serPrevtxInput).flatten ++ serialize_varint init.num_outputs ++
  (outs.map serPrevtxOutput).flatten ++ le32 init.locktime

/-! ## Host message sequences -/

/-- The host messages streaming the inputs of a previous transaction. -/
def prevtxInputMsgs (ins : List BtcPrevTxInputRequest) : List Request :=
  ins.map fun pin => Request.btc (some (BtcRequest.prevtxInput pin))

/-- The host messages streaming the outputs of a previous transaction. -/
def prevtxOutputMsgs (outs : List BtcPrevTxOutputRequest) : List Request :=
  outs.map fun pout => Request.btc (some (BtcRequest.prevtxOutput pout))

/-- The host messages streaming one whole previous transaction. -/
def prevtxMsgs (init : BtcPrevTxInitRequest) (ins : List BtcPrevTxInputRequest)
    (outs : List BtcPrevTxOutputRequest) : List Request :=
  Request.btc (some (BtcRequest.prevtxInit init)) ::
    (prevtxInputMsgs ins ++ prevtxOutputMsgs outs)

/-! ## Symbolic run lemmas for the protocol framer -/

/-- The hint as staged by `get_request` before sending. -/
def stagedNext (n : BtcSignNextResponse) (typ index : Nat) (pidx : Option Nat) :
    BtcSignNextResponse :=
  match pidx with
  | some p => { n with type := typ, index := index, prev_index := p }
  | none => { n with type := typ, index := index }

theorem run_get_request_ok (typ index : Nat) (pidx : Option Nat) (st : St)
    (req : Request) (rest : List Request) (h : st.host = req :: rest) :
    get_request typ index pidx st =
      (Except.ok req,
       { host := rest,
         resp := { next := defaultNext, wrap := st.resp.wrap },
         trace := st.trace ++ [Event.sent (NextResponse.to_protobuf
           { next := stagedNext st.resp.next typ index pidx, wrap := st.resp.wrap })] }) := by
  cases pidx <;>
    simp [get_request, run_bind, run_pure, getS, modifyS, next_request, h, stagedNext]

theorem run_get_request_err (typ index : Nat) (pidx : Option Nat) (st : St)
    (h : st.host = []) :
    get_request typ index pidx st =
      (Except.error Error.generic,
       { host := st.host,
         resp := { next := stagedNext st.resp.next typ index pidx, wrap := st.resp.wrap },
         trace := st.trace ++ [Event.sent (NextResponse.to_protobuf
           { next := stagedNext st.resp.next typ index pidx, wrap := st.resp.wrap })] }) := by
  cases pidx <;>
    simp [get_request, run_bind, run_pure, getS, modifyS, next_request, h, stagedNext]

/-- The `sent` event produced by `get_request` when the hint was staged from
`r0` with the given type, index and optional prev_index. -/
def sentHint (r0 : NextResponse) (typ index : Nat) (pidx : Option Nat) : Event :=
  Event.sent (NextResponse.to_protobuf
    { next := stagedNext r0.next typ index pidx, wrap := r0.wrap })

/-- The state after a successful typed accessor exchange: host head consumed,
hint reset, `wrap` updated, the sent hint recorded. -/
def accessorOutState (st : St) (rest : List Request) (typ index : Nat)
    (pidx : Option Nat) (wrapAfter : Bool) : St :=
  { host := rest,
    resp := { next := defaultNext, wrap := wrapAfter },
    trace := st.trace ++ [Event.sent (NextResponse.to_protobuf
      { next := stagedNext st.resp.next typ index pidx, wrap := st.resp.wrap })] }

theorem run_get_tx_input_ok (index : Nat) (st : St) (r : BtcSignInputRequest)
    (rest : List Request) (h : st.host = Request.btcSignInput r :: rest) :
    get_tx_input index st =
      (Except.ok r, accessorOutState st rest NextType.input index none false) := by
  simp [get_tx_input, run_bind, run_pure, run_get_request_ok _ _ _ _ _ _ h, modifyS,
    accessorOutState]

theorem run_get_prevtx_init_ok (index : Nat) (st : St)
    (r : BtcPrevTxInitRequest) (rest : List Request)
    (h : st.host = Request.btc (some (BtcRequest.prevtxInit r)) :: rest) :
    get_prevtx_init index st =
      (Except.ok r, accessorOutState st rest NextType.prevtxInit index none true) := by
  have h2 : ({ st with resp := { st.resp with
      next := { st.resp.next with type := NextType.prevtxInit, index := index } } } : St).host
      = Request.btc (some (BtcRequest.prevtxInit r)) :: rest := h
  simp [get_prevtx_init, run_bind, run_pure, modifyS, run_get_request_ok _ _ _ _ _ _ h2,
    accessorOutState, stagedNext]

theorem run_get_prevtx_input_ok (input_index k : Nat) (st : St)
    (r : BtcPrevTxInputRequest) (rest : List Request)
    (h : st.host = Request.btc (some (BtcRequest.prevtxInput r)) :: rest) :
    get_prevtx_input input_index k st =
      (Except.ok r,
       accessorOutState st rest NextType.prevtxInput input_index (some k) true) := by
  simp [get_prevtx_input, run_bind, run_pure, run_get_request_ok _ _ _ _ _ _ h, modifyS,
    accessorOutState]

theorem run_get_prevtx_output_ok (output_index k : Nat) (st : St)
    (r : BtcPrevTxOutputRequest) (rest : List Request)
    (h : st.host = Request.btc (some (BtcRequest.prevtxOutput r)) :: rest) :
    get_prevtx_output output_index k st =
      (Except.ok r,
       accessorOutState st rest NextType.prevtxOutput output_index (some k) true) := by
  simp [get_prevtx_output, run_bind, run_pure, run_get_request_ok _ _ _ _ _ _ h, modifyS,
    accessorOutState]

theorem run_get_tx_output_ok (index : Nat) (st : St) (r : BtcSignOutputRequest)
    (rest : List Request) (h : st.host = Request.btcSignOutput r :: rest) :
    get_tx_output index st =
      (Except.ok r, accessorOutState st rest NextType.output index none false) := by
  simp [get_tx_output, run_bind, run_pure, run_get_request_ok _ _ _ _ _ _ h, modifyS,
    accessorOutState]

theorem run_get_antiklepto_host_nonce_ok (index : Nat) (st : St)
    (r : AntiKleptoSignatureRequest) (rest : List Request)
    (h : st.host = Request.btc (some (BtcRequest.antikleptoSignature r)) :: rest) :
    get_antiklepto_host_nonce index st =
      (Except.ok r, accessorOutState st rest NextType.hostNonce index none true) := by
  simp [get_antiklepto_host_nonce, run_bind, run_pure,
    run_get_request_ok _ _ _ _ _ _ h, modifyS, accessorOutState]

/-! ## Symbolic run lemmas for the prevtx verifier -/

/-- The hints sent while streaming `count` prevtx inputs starting at `k`. -/
def prevtxInputsSent (i : Nat) : Nat → Nat → List Event
  | _, 0 => []
  | k, r + 1 =>
      Event.sent (Response.btc (BtcResponse.signNext
        { defaultNext with type := NextType.prevtxInput, index := i, prev_index := k })) ::
      prevtxInputsSent i (k + 1) r

/-- The hints sent while streaming `count` prevtx outputs starting at `k`. -/
def prevtxOutputsSent (i : Nat) : Nat → Nat → List Event
  | _, 0 => []
  | k, r + 1 =>
      Event.sent (Response.btc (BtcResponse.signNext
        { defaultNext with type := NextType.prevtxOutput, index := i, prev_index := k })) ::
      prevtxOutputsSent i (k + 1) r

/-- The value check of `handle_prevtx` succeeds on every output of `outs`
when they are streamed starting at index `k`: at `input.prev_out_index` the
streamed value must equal `input.prev_out_value`. -/
def valuesOkB (input : BtcSignInputRequest) : Nat → List BtcPrevTxOutputRequest → Bool
  | _, [] => true
  | k, pout :: rest =>
      ((k != input.prev_out_index) || (input.prev_out_value == pout.value)) &&
      valuesOkB input (k + 1) rest

theorem run_prevtxInputsLoop (i : Nat) :
    ∀ (ins : List BtcPrevTxInputRequest) (k : Nat) (acc : List Nat) (st : St)
      (rest : List Request),
    st.host = prevtxInputMsgs ins ++ rest →
    st.resp = { next := defaultNext, wrap := true } →
    prevtxInputsLoop i ins.length k acc st =
      (Except.ok (acc ++ (ins.map serPrevtxInput).flatten),
       { host := rest, resp := { next := defaultNext, wrap := true },
         trace := st.trace ++ prevtxInputsSent i k ins.length })
  | [], k, acc, st, rest, hh, hr => by
      cases st
      simp_all [prevtxInputsLoop, run_pure, prevtxInputMsgs, prevtxInputsSent]
  | pin :: ins, k, acc, st, rest, hh, hr => by
      have hh1 : st.host = Request.btc (some (BtcRequest.prevtxInput pin)) ::
          (prevtxInputMsgs ins ++ rest) := by
        simpa [prevtxInputMsgs] using hh
      have e1 := run_get_prevtx_input_ok i k st pin (prevtxInputMsgs ins ++ rest) hh1
      have e2 := run_prevtxInputsLoop i ins (k + 1)
        (acc ++ pin.prev_out_hash ++ le32 pin.prev_out_index ++
         serialize_varint pin.signature_script.length ++ pin.signature_script ++
         le32 pin.sequence)
        (accessorOutState st (prevtxInputMsgs ins ++ rest) NextType.prevtxInput i
          (some k) true)
        rest rfl rfl
      simp only [List.length_cons, prevtxInputsLoop, run_bind, e1, e2]
      simp [accessorOutState, hr, stagedNext, NextResponse.to_protobuf,
        prevtxInputsSent, serPrevtxInput, List.append_assoc]

theorem run_prevtxOutputsLoop_ok (i : Nat) (input : BtcSignInputRequest) :
    ∀ (outs : List BtcPrevTxOutputRequest) (k : Nat) (acc : List Nat) (st : St)
      (rest : List Request),
    st.host = prevtxOutputMsgs outs ++ rest →
    st.resp = { next := defaultNext, wrap := true } →
    valuesOkB input k outs = true →
    prevtxOutputsLoop i input outs.length k acc st =
      (Except.ok (acc ++ (outs.map serPrevtxOutput).flatten),
       { host := rest, resp := { next := defaultNext, wrap := true },
         trace := st.trace ++ prevtxOutputsSent i k outs.length })
  | [], k, acc, st, rest, hh, hr, hv => by
      cases st
      simp_all [prevtxOutputsLoop, run_pure, prevtxOutputMsgs, prevtxOutputsSent]
  | pout :: outs, k, acc, st, rest, hh, hr, hv => by
      have hh1 : st.host = Request.btc (some (BtcRequest.prevtxOutput pout)) ::
          (prevtxOutputMsgs outs ++ rest) := by
        simpa [prevtxOutputMsgs] using hh
      have e1 := run_get_prevtx_output_ok i k st pout (prevtxOutputMsgs outs ++ rest) hh1
      have hcond : ¬(k = input.prev_out_index ∧ input.prev_out_value ≠ pout.value) := by
        rcases Bool.and_eq_true_iff.mp hv with ⟨hv1, _⟩
        rcases Bool.or_eq_true_iff.mp hv1 with h | h
        · exact fun hc => by simp [hc.1] at h
        · exact fun hc => hc.2 (by simpa using h)
      have hv2 : valuesOkB input (k + 1) outs = true :=
        (Bool.and_eq_true_iff.mp hv).2
      have e2 := run_prevtxOutputsLoop_ok i input outs (k + 1)
        (acc ++ le64 pout.value ++ serialize_varint pout.pubkey_script.length ++
         pout.pubkey_script)
        (accessorOutState st (prevtxOutputMsgs outs ++ rest) NextType.prevtxOutput i
          (some k) true)
        rest rfl rfl hv2
      simp only [List.length_cons, prevtxOutputsLoop, run_bind, e1, if_neg hcond, e2]
      simp [accessorOutState, hr, stagedNext, NextResponse.to_protobuf,
        prevtxOutputsSent, serPrevtxOutput, List.append_assoc]

theorem run_prevtxOutputsLoop_mismatch (i : Nat) (input : BtcSignInputRequest) :
    ∀ (outs1 : List BtcPrevTxOutputRequest) (bad : BtcPrevTxOutputRequest)
      (k : Nat) (acc : List Nat) (st : St) (rest : List Request) (n : Nat),
    st.host = prevtxOutputMsgs outs1 ++
      (Request.btc (some (BtcRequest.prevtxOutput bad)) :: rest) →
    st.resp = { next := defaultNext, wrap := true } →
    valuesOkB input k outs1 = true →
    k + outs1.length = input.prev_out_index →
    input.prev_out_value ≠ bad.value →
    outs1.length + 1 ≤ n →
    prevtxOutputsLoop i input n k acc st =
      (Except.error Error.invalidInput,
       { host := rest, resp := { next := defaultNext, wrap := true },
         trace := st.trace ++ prevtxOutputsSent i k (outs1.length + 1) })
  | [], bad, k, acc, st, rest, n, hh, hr, hv, hk, hbad, hn => by
      obtain ⟨m, rfl⟩ : ∃ m, n = m + 1 :=
        ⟨n - 1, by omega⟩
      have hh1 : st.host = Request.btc (some (BtcRequest.prevtxOutput bad)) :: rest := by
        simpa [prevtxOutputMsgs] using hh
      have e1 := run_get_prevtx_output_ok i k st bad rest hh1
      have hcond : k = input.prev_out_index ∧ input.prev_out_value ≠ bad.value :=
        ⟨by simpa using hk, hbad⟩
      simp only [prevtxOutputsLoop, run_bind, e1, if_pos hcond, throwE]
      simp [accessorOutState, hr, stagedNext, NextResponse.to_protobuf,
        prevtxOutputsSent]
  | pout :: outs1, bad, k, acc, st, rest, n, hh, hr, hv, hk, hbad, hn => by
      obtain ⟨m, rfl⟩ : ∃ m, n = m + 1 :=
        ⟨n - 1, by omega⟩
      have hh1 : st.host = Request.btc (some (BtcRequest.prevtxOutput pout)) ::
          (prevtxOutputMsgs outs1 ++
            (Request.btc (some (BtcRequest.prevtxOutput bad)) :: rest)) := by
        simpa [prevtxOutputMsgs] using hh
      have e1 := run_get_prevtx_output_ok i k st pout _ hh1
      have hcond : ¬(k = input.prev_out_index ∧ input.prev_out_value ≠ pout.value) := by
        rcases Bool.and_eq_true_iff.mp hv with ⟨hv1, _⟩
        rcases Bool.or_eq_true_iff.mp hv1 with h | h
        · exact fun hc => by simp [hc.1] at h
        · exact fun hc => hc.2 (by simpa using h)
      have e2 := run_prevtxOutputsLoop_mismatch i input outs1 bad (k + 1)
        (acc ++ le64 pout.value ++ serialize_varint pout.pubkey_script.length ++
         pout.pubkey_script)
        (accessorOutState st
          (prevtxOutputMsgs outs1 ++
            (Request.btc (some (BtcRequest.prevtxOutput bad)) :: rest))
          NextType.prevtxOutput i (some k) true)
        rest m rfl rfl (Bool.and_eq_true_iff.mp hv).2 (by simp at hk ⊢; omega) hbad
        (by simp at hn ⊢; omega)
      simp only [prevtxOutputsLoop, run_bind, e1, if_neg hcond, e2]
      simp [accessorOutState, hr, stagedNext, NextResponse.to_protobuf,
        prevtxOutputsSent, List.length_cons]

/-- The hints sent by a full streaming of one previous transaction, starting
from `NextResponse` state `r0`. -/
def prevtxSent (r0 : NextResponse) (i nIn nOut : Nat) : List Event :=
  Event.sent (NextResponse.to_protobuf
    { next := { r0.next with type := NextType.prevtxInit, index := i },
      wrap := r0.wrap }) ::
  (prevtxInputsSent i 0 nIn ++ prevtxOutputsSent i 0 nOut)

/-- The value check is vacuous when every streamed index stays below
`input.prev_out_index`. -/
theorem valuesOkB_of_le (input : BtcSignInputRequest) :
    ∀ (outs : List BtcPrevTxOutputRequest) (k : Nat),
    k + outs.length ≤ input.prev_out_index → valuesOkB input k outs = true
  | [], _, _ => rfl
  | pout :: outs, k, h => by
      have hk : k ≠ input.prev_out_index := by simp at h; omega
      have := valuesOkB_of_le input outs (k + 1) (by simp at h ⊢; omega)
      simp [valuesOkB, this, hk]

/-- The state after a successful `handle_prevtx` for input `i` from state
`st`: prevtx messages consumed, hint reset with `wrap = true`, streaming
hints and the verification marker appended. -/
def prevtxOutSt (st : St) (rest : List Request) (i nIn nOut : Nat) : St :=
  { host := rest, resp := { next := defaultNext, wrap := true },
    trace := st.trace ++ prevtxSent st.resp i nIn nOut ++ [Event.prevtxVerified i] }

theorem run_handle_prevtx_ok (i : Nat) (input : BtcSignInputRequest)
    (init : BtcPrevTxInitRequest) (ins : List BtcPrevTxInputRequest)
    (outs : List BtcPrevTxOutputRequest) (st : St) (rest : List Request)
    (hh : st.host = prevtxMsgs init ins outs ++ rest)
    (hlen1 : ins.length = init.num_inputs)
    (hlen2 : outs.length = init.num_outputs)
    (h1 : 1 ≤ init.num_inputs) (h2 : 1 ≤ init.num_outputs)
    (hv : valuesOkB input 0 outs = true)
    (hhash : dsha256 (prevtxSerialization init ins outs) = input.prev_out_hash) :
    handle_prevtx i input st =
      (Except.ok (), prevtxOutSt st rest i init.num_inputs init.num_outputs) := by
  have hh1 : st.host = Request.btc (some (BtcRequest.prevtxInit init)) ::
      ((prevtxInputMsgs ins ++ prevtxOutputMsgs outs) ++ rest) := by
    simpa [prevtxMsgs, List.append_assoc] using hh
  have e1 := run_get_prevtx_init_ok i st init _ hh1
  have hguard : ¬(init.num_inputs < 1 ∨ init.num_outputs < 1) := by omega
  have e2 := run_prevtxInputsLoop i ins 0
    (le32 init.version ++ serialize_varint init.num_inputs)
    (accessorOutState st ((prevtxInputMsgs ins ++ prevtxOutputMsgs outs) ++ rest)
      NextType.prevtxInit i none true)
    (prevtxOutputMsgs outs ++ rest) (by simp [accessorOutState, List.append_assoc]) rfl
  have e3 := run_prevtxOutputsLoop_ok i input outs 0
    ((le32 init.version ++ serialize_varint init.num_inputs ++
      (ins.map serPrevtxInput).flatten) ++ serialize_varint init.num_outputs)
    ({ host := prevtxOutputMsgs outs ++ rest,
       resp := { next := defaultNext, wrap := true },
       trace := (accessorOutState st
         ((prevtxInputMsgs ins ++ prevtxOutputMsgs outs) ++ rest)
         NextType.prevtxInit i none true).trace ++
         prevtxInputsSent i 0 ins.length } : St)
    rest rfl rfl hv
  have hser : ((le32 init.version ++ serialize_varint init.num_inputs ++
      (ins.map serPrevtxInput).flatten) ++ serialize_varint init.num_outputs ++
      (outs.map serPrevtxOutput).flatten) ++ le32 init.locktime =
      prevtxSerialization init ins outs := by
    simp [prevtxSerialization, List.append_assoc]
  rw [hlen1] at e2
  rw [hlen1, hlen2] at e3
  simp only [handle_prevtx, run_bind, e1]
  rw [if_neg hguard]
  simp only [run_bind, e2, e3]
  rw [hser, if_neg (not_ne_iff.mpr hhash)]
  simp [emit, accessorOutState, prevtxOutSt, prevtxSent, stagedNext, List.append_assoc]

theorem run_handle_prevtx_hashMismatch (i : Nat) (input : BtcSignInputRequest)
    (init : BtcPrevTxInitRequest) (ins : List BtcPrevTxInputRequest)
    (outs : List BtcPrevTxOutputRequest) (st : St) (rest : List Request)
    (hh : st.host = prevtxMsgs init ins outs ++ rest)
    (hlen1 : ins.length = init.num_inputs)
    (hlen2 : outs.length = init.num_outputs)
    (h1 : 1 ≤ init.num_inputs) (h2 : 1 ≤ init.num_outputs)
    (hv : valuesOkB input 0 outs = true)
    (hhash : dsha256 (prevtxSerialization init ins outs) ≠ input.prev_out_hash) :
    handle_prevtx i input st =
      (Except.error Error.invalidInput,
       { host := rest, resp := { next := defaultNext, wrap := true },
         trace := st.trace ++
           prevtxSent st.resp i init.num_inputs init.num_outputs }) := by
  have hh1 : st.host = Request.btc (some (BtcRequest.prevtxInit init)) ::
      ((prevtxInputMsgs ins ++ prevtxOutputMsgs outs) ++ rest) := by
    simpa [prevtxMsgs, List.append_assoc] using hh
  have e1 := run_get_prevtx_init_ok i st init _ hh1
  have hguard : ¬(init.num_inputs < 1 ∨ init.num_outputs < 1) := by omega
  have e2 := run_prevtxInputsLoop i ins 0
    (le32 init.version ++ serialize_varint init.num_inputs)
    (accessorOutState st ((prevtxInputMsgs ins ++ prevtxOutputMsgs outs) ++ rest)
      NextType.prevtxInit i none true)
    (prevtxOutputMsgs outs ++ rest) (by simp [accessorOutState, List.append_assoc]) rfl
  have e3 := run_prevtxOutputsLoop_ok i input outs 0
    ((le32 init.version ++ serialize_varint init.num_inputs ++
      (ins.map serPrevtxInput).flatten) ++ serialize_varint init.num_outputs)
    ({ host := prevtxOutputMsgs outs ++ rest,
       resp := { next := defaultNext, wrap := true },
       trace := (accessorOutState st
         ((prevtxInputMsgs ins ++ prevtxOutputMsgs outs) ++ rest)
         NextType.prevtxInit i none true).trace ++
         prevtxInputsSent i 0 ins.length } : St)
    rest rfl rfl hv
  have hser : ((le32 init.version ++ serialize_varint init.num_inputs ++
      (ins.map serPrevtxInput).flatten) ++ serialize_varint init.num_outputs ++
      (outs.map serPrevtxOutput).flatten) ++ le32 init.locktime =
      prevtxSerialization init ins outs := by
    simp [prevtxSerialization, List.append_assoc]
  rw [hlen1] at e2
  rw [hlen1, hlen2] at e3
  simp only [handle_prevtx, run_bind, e1]
  rw [if_neg hguard]
  simp only [run_bind, e2, e3]
  rw [hser, if_pos hhash]
  simp [throwE, accessorOutState, prevtxSent, stagedNext, List.append_assoc]

theorem run_handle_prevtx_valueMismatch (i : Nat) (input : BtcSignInputRequest)
    (init : BtcPrevTxInitRequest) (ins : List BtcPrevTxInputRequest)
    (outs1 : List BtcPrevTxOutputRequest) (bad : BtcPrevTxOutputRequest)
    (st : St) (rest : List Request)
    (hh : st.host = Request.btc (some (BtcRequest.prevtxInit init)) ::
      (prevtxInputMsgs ins ++ prevtxOutputMsgs outs1 ++
        (Request.btc (some (BtcRequest.prevtxOutput bad)) :: rest)))
    (hlen1 : ins.length = init.num_inputs)
    (h1 : 1 ≤ init.num_inputs)
    (hidx : outs1.length = input.prev_out_index)
    (hbad : input.prev_out_value ≠ bad.value)
    (hcount : outs1.length + 1 ≤ init.num_outputs) :
    handle_prevtx i input st =
      (Except.error Error.invalidInput,
       { host := rest, resp := { next := defaultNext, wrap := true },
         trace := st.trace ++ Event.sent (NextResponse.to_protobuf
           { next := { st.resp.next with type := NextType.prevtxInit, index := i },
             wrap := st.resp.wrap }) ::
           (prevtxInputsSent i 0 init.num_inputs ++
            prevtxOutputsSent i 0 (outs1.length + 1)) }) := by
  have e1 := run_get_prevtx_init_ok i st init _ hh
  have hguard : ¬(init.num_inputs < 1 ∨ init.num_outputs < 1) := by omega
  have e2 := run_prevtxInputsLoop i ins 0
    (le32 init.version ++ serialize_varint init.num_inputs)
    (accessorOutState st
      (prevtxInputMsgs ins ++ prevtxOutputMsgs outs1 ++
        (Request.btc (some (BtcRequest.prevtxOutput bad)) :: rest))
      NextType.prevtxInit i none true)
    (prevtxOutputMsgs outs1 ++
      (Request.btc (some (BtcRequest.prevtxOutput bad)) :: rest))
    (by simp [accessorOutState, List.append_assoc]) rfl
  have hvOuts1 : valuesOkB input 0 outs1 = true :=
    valuesOkB_of_le input outs1 0 (by omega)
  have e3 := run_prevtxOutputsLoop_mismatch i input outs1 bad 0
    ((le32 init.version ++ serialize_varint init.num_inputs ++
      (ins.map serPrevtxInput).flatten) ++ serialize_varint init.num_outputs)
    ({ host := prevtxOutputMsgs outs1 ++
         (Request.btc (some (BtcRequest.prevtxOutput bad)) :: rest),
       resp := { next := defaultNext, wrap := true },
       trace := (accessorOutState st
         (prevtxInputMsgs ins ++ prevtxOutputMsgs outs1 ++
           (Request.btc (some (BtcRequest.prevtxOutput bad)) :: rest))
         NextType.prevtxInit i none true).trace ++
         prevtxInputsSent i 0 ins.length } : St)
    rest init.num_outputs rfl rfl hvOuts1 (by simp; omega) hbad hcount
  rw [hlen1] at e2 e3
  simp only [handle_prevtx, run_bind, e1]
  rw [if_neg hguard]
  simp only [run_bind, e2, e3]
  simp [accessorOutState, stagedNext, List.append_assoc]

/-! ## Claims C1, C2, C9: the prevtx verifier -/

/-- **C1**: For every input, the device recomputes the previous transaction's
txid as SHA256(SHA256(·)) over the canonical legacy serialization of the
streamed PrevTx records; if the recomputed hash differs from
`input.prev_out_hash` the session fails with `InvalidInput`, and if it
matches the prevtx handler returns `Ok`. -/
theorem C1_prevtx_txid_check (i : Nat) (input : BtcSignInputRequest)
    (init : BtcPrevTxInitRequest) (ins : List BtcPrevTxInputRequest)
    (outs : List BtcPrevTxOutputRequest) (st : St) (rest : List Request)
    (hh : st.host = prevtxMsgs init ins outs ++ rest)
    (hlen1 : ins.length = init.num_inputs)
    (hlen2 : outs.length = init.num_outputs)
    (h1 : 1 ≤ init.num_inputs) (h2 : 1 ≤ init.num_outputs)
    (hv : valuesOkB input 0 outs = true) :
    (handle_prevtx i input st).1 =
      if dsha256 (prevtxSerialization init ins outs) = input.prev_out_hash
      then Except.ok () else Except.error Error.invalidInput := by
  by_cases hx : dsha256 (prevtxSerialization init ins outs) = input.prev_out_hash
  · rw [run_handle_prevtx_ok i input init ins outs st rest hh hlen1 hlen2 h1 h2 hv hx,
      if_pos hx]
  · rw [run_handle_prevtx_hashMismatch i input init ins outs st rest hh hlen1 hlen2
      h1 h2 hv hx, if_neg hx]

/-- **C2**: while streaming the previous transaction's outputs, if the
streamed output whose index equals `input.prev_out_index` has a value
different from `input.prev_out_value`, the session fails with `InvalidInput`
immediately (before that output is hashed): the handler stops right there,
whatever host messages follow. -/
theorem C2_prevtx_value_mismatch (i : Nat) (input : BtcSignInputRequest)
    (init : BtcPrevTxInitRequest) (ins : List BtcPrevTxInputRequest)
    (outs1 : List BtcPrevTxOutputRequest) (bad : BtcPrevTxOutputRequest)
    (st : St) (rest : List Request)
    (hh : st.host = Request.btc (some (BtcRequest.prevtxInit init)) ::
      (prevtxInputMsgs ins ++ prevtxOutputMsgs outs1 ++
        (Request.btc (some (BtcRequest.prevtxOutput bad)) :: rest)))
    (hlen1 : ins.length = init.num_inputs)
    (h1 : 1 ≤ init.num_inputs)
    (hidx : outs1.length = input.prev_out_index)
    (hbad : input.prev_out_value ≠ bad.value)
    (hcount : outs1.length + 1 ≤ init.num_outputs) :
    (handle_prevtx i input st).1 = Except.error Error.invalidInput ∧
    (handle_prevtx i input st).2.host = rest := by
  rw [run_handle_prevtx_valueMismatch i input init ins outs1 bad st rest hh hlen1 h1
    hidx hbad hcount]
  exact ⟨rfl, rfl⟩

/-- **C9**: when `input.prev_out_index` is at least the streamed
`num_outputs`, no value comparison is performed for that input: the handler
returns `Ok` whenever the recomputed txid matches `prev_out_hash`, for any
`prev_out_value` whatsoever. -/
theorem C9_out_of_range_value_unchecked (i : Nat) (input : BtcSignInputRequest)
    (init : BtcPrevTxInitRequest) (ins : List BtcPrevTxInputRequest)
    (outs : List BtcPrevTxOutputRequest) (st : St) (rest : List Request) (v : Nat)
    (hh : st.host = prevtxMsgs init ins outs ++ rest)
    (hlen1 : ins.length = init.num_inputs)
    (hlen2 : outs.length = init.num_outputs)
    (h1 : 1 ≤ init.num_inputs) (h2 : 1 ≤ init.num_outputs)
    (hrange : init.num_outputs ≤ input.prev_out_index)
    (hhash : dsha256 (prevtxSerialization init ins outs) = input.prev_out_hash) :
    (handle_prevtx i { input with prev_out_value := v } st).1 = Except.ok () := by
  have hv : valuesOkB { input with prev_out_value := v } 0 outs = true :=
    valuesOkB_of_le _ outs 0 (by simp; omega)
  rw [run_handle_prevtx_ok i { input with prev_out_value := v } init ins outs st rest
    hh hlen1 hlen2 h1 h2 hv (by simpa using hhash)]

/-! ### Concrete witness fixtures -/

/-- A concrete previous transaction header for witnesses. -/
def wPrevtxInit : BtcPrevTxInitRequest :=
  { version := 1, num_inputs := 1, num_outputs := 1, locktime := 0 }

/-- A concrete previous-transaction input for witnesses. -/
def wPrevtxIn : BtcPrevTxInputRequest :=
  { prev_out_hash := List.replicate 32 0x74, prev_out_index := 3,
    signature_script := [1, 2, 3], sequence := 0xffffffff }

/-- A concrete previous-transaction output for witnesses. -/
def wPrevtxOut : BtcPrevTxOutputRequest :=
  { value := 1010000000, pubkey_script := [4, 5] }

/-- A concrete transaction input whose `prev_out_hash` is the real txid of
the witness prevtx. -/
def wInput : BtcSignInputRequest :=
  { prev_out_hash := dsha256 (prevtxSerialization wPrevtxInit [wPrevtxIn] [wPrevtxOut]),
    prev_out_index := 0, prev_out_value := 1010000000, sequence := 0xffffffff,
    keypath := [], script_config_index := 0, host_nonce_commitment := none }

/-- A session state whose host streams the witness prevtx. -/
def wSt : St :=
  { host := prevtxMsgs wPrevtxInit [wPrevtxIn] [wPrevtxOut],
    resp := initResponse, trace := [] }

theorem C1_witness :
    (handle_prevtx 0 wInput wSt).1 =
      if dsha256 (prevtxSerialization wPrevtxInit [wPrevtxIn] [wPrevtxOut]) =
          wInput.prev_out_hash
      then Except.ok () else Except.error Error.invalidInput :=
  C1_prevtx_txid_check 0 wInput wPrevtxInit [wPrevtxIn] [wPrevtxOut] wSt []
    (by simp [wSt]) rfl rfl (by decide) (by decide) (by decide)

/-- A session state whose host streams the witness prevtx but with a wrong
value on the output referenced by `wInput` (`prev_out_index = 0`). -/
def wStBadValue : St :=
  { host := Request.btc (some (BtcRequest.prevtxInit wPrevtxInit)) ::
      (prevtxInputMsgs [wPrevtxIn] ++ prevtxOutputMsgs [] ++
        [Request.btc (some (BtcRequest.prevtxOutput { value := 999, pubkey_script := [4, 5] }))]),
    resp := initResponse, trace := [] }

theorem C2_witness :
    (handle_prevtx 0 wInput wStBadValue).1 = Except.error Error.invalidInput ∧
    (handle_prevtx 0 wInput wStBadValue).2.host = [] :=
  C2_prevtx_value_mismatch 0 wInput wPrevtxInit [wPrevtxIn] []
    { value := 999, pubkey_script := [4, 5] } wStBadValue []
    (by simp [wStBadValue]) rfl (by decide) (by decide) (by decide) (by decide)

/-- A concrete input referencing an out-of-range `prev_out_index`. -/
def wInputHighIndex : BtcSignInputRequest :=
  { prev_out_hash := dsha256 (prevtxSerialization wPrevtxInit [wPrevtxIn] [wPrevtxOut]),
    prev_out_index := 5, prev_out_value := 1010000000, sequence := 0xffffffff,
    keypath := [], script_config_index := 0, host_nonce_commitment := none }

theorem C9_witness :
    (handle_prevtx 0 { wInputHighIndex with prev_out_value := 123456789 } wSt).1 =
      Except.ok () :=
  C9_out_of_range_value_unchecked 0 wInputHighIndex wPrevtxInit [wPrevtxIn]
    [wPrevtxOut] wSt [] 123456789 (by simp [wSt]) rfl rfl (by decide) (by decide)
    (by decide) rfl

/-! ## Claim C7: the hint is reset after every host round-trip -/

/-- **C7**: in the exchange primitive, immediately after the host's request
is received (and before the next hint is composed), every `NextResponse`
field — type, index, prev_index, has_signature, signature,
anti_klepto_signer_commitment — is reset to its default, so transient data
is delivered at most once. -/
theorem C7_next_response_reset (typ index : Nat) (pidx : Option Nat)
    (st st' : St) (req : Request)
    (h : get_request typ index pidx st = (Except.ok req, st')) :
    st'.resp.next = defaultNext := by
  rcases hcase : st.host with _ | ⟨q, rest⟩
  · rw [run_get_request_err typ index pidx st hcase] at h
    simp at h
  · rw [run_get_request_ok typ index pidx st q rest hcase] at h
    simp only [Prod.mk.injEq] at h
    rw [← h.2]

/-- A tiny session state for framer witnesses. -/
def wStFramer : St :=
  { host := [Request.other],
    resp := { next := { defaultNext with has_signature := true, signature := [9, 9] },
              wrap := true },
    trace := [] }

theorem C7_witness :
    ((get_request NextType.input 0 none wStFramer).2).resp.next = defaultNext :=
  C7_next_response_reset NextType.input 0 none wStFramer
    (get_request NextType.input 0 none wStFramer).2 Request.other rfl

/-! ## Per-accessor wrap and wrong-variant lemmas (claims C8 and C4) -/

theorem get_tx_input_wrap (index : Nat) (st st' : St) (r : BtcSignInputRequest)
    (h : get_tx_input index st = (Except.ok r, st')) : st'.resp.wrap = false := by
  rcases hq : get_request NextType.input index none st with ⟨res, st1⟩
  cases res with
  | error e =>
      simp only [get_tx_input, run_bind, hq] at h
      simp at h
  | ok req =>
      simp only [get_tx_input, run_bind, hq, modifyS, run_pure] at h
      cases req <;> simp_all [throwE, run_pure]
      all_goals try rw [← h.2]

theorem get_tx_output_wrap (index : Nat) (st st' : St) (r : BtcSignOutputRequest)
    (h : get_tx_output index st = (Except.ok r, st')) : st'.resp.wrap = false := by
  rcases hq : get_request NextType.output index none st with ⟨res, st1⟩
  cases res with
  | error e =>
      simp only [get_tx_output, run_bind, hq] at h
      simp at h
  | ok req =>
      simp only [get_tx_output, run_bind, hq, modifyS, run_pure] at h
      cases req <;> simp_all [throwE, run_pure]
      all_goals try rw [← h.2]

theorem get_prevtx_init_wrap (index : Nat) (st st' : St) (r : BtcPrevTxInitRequest)
    (h : get_prevtx_init index st = (Except.ok r, st')) : st'.resp.wrap = true := by
  rcases hq : get_request NextType.prevtxInit index none
    ({ st with resp := { st.resp with
        next := { st.resp.next with type := NextType.prevtxInit, index := index } } }) with
    ⟨res, st1⟩
  cases res with
  | error e =>
      simp only [get_prevtx_init, run_bind, modifyS, hq] at h
      simp at h
  | ok req =>
      simp only [get_prevtx_init, run_bind, modifyS, hq, run_pure] at h
      rcases req with r1 | r1 | q | _
      · simp_all [throwE]
      · simp_all [throwE]
      · rcases q with _ | q2
        · simp_all [throwE]
        · rcases q2 with r2 | r2 | r2 | r2 | _ <;> simp_all [throwE, run_pure]
          all_goals try rw [← h.2]
      · simp_all [throwE]

theorem get_prevtx_input_wrap (i k : Nat) (st st' : St) (r : BtcPrevTxInputRequest)
    (h : get_prevtx_input i k st = (Except.ok r, st')) : st'.resp.wrap = true := by
  rcases hq : get_request NextType.prevtxInput i (some k) st with ⟨res, st1⟩
  cases res with
  | error e =>
      simp only [get_prevtx_input, run_bind, hq] at h
      simp at h
  | ok req =>
      simp only [get_prevtx_input, run_bind, hq, modifyS, run_pure] at h
      rcases req with r1 | r1 | q | _
      · simp_all [throwE]
      · simp_all [throwE]
      · rcases q with _ | q2
        · simp_all [throwE]
        · rcases q2 with r2 | r2 | r2 | r2 | _ <;> simp_all [throwE, run_pure]
          all_goals try rw [← h.2]
      · simp_all [throwE]

theorem get_prevtx_output_wrap (i k : Nat) (st st' : St) (r : BtcPrevTxOutputRequest)
    (h : get_prevtx_output i k st = (Except.ok r, st')) : st'.resp.wrap = true := by
  rcases hq : get_request NextType.prevtxOutput i (some k) st with ⟨res, st1⟩
  cases res with
  | error e =>
      simp only [get_prevtx_output, run_bind, hq] at h
      simp at h
  | ok req =>
      simp only [get_prevtx_output, run_bind, hq, modifyS, run_pure] at h
      rcases req with r1 | r1 | q | _
      · simp_all [throwE]
      · simp_all [throwE]
      · rcases q with _ | q2
        · simp_all [throwE]
        · rcases q2 with r2 | r2 | r2 | r2 | _ <;> simp_all [throwE, run_pure]
          all_goals try rw [← h.2]
      · simp_all [throwE]

theorem get_antiklepto_host_nonce_wrap (index : Nat) (st st' : St)
    (r : AntiKleptoSignatureRequest)
    (h : get_antiklepto_host_nonce index st = (Except.ok r, st')) :
    st'.resp.wrap = true := by
  rcases hq : get_request NextType.hostNonce index none st with ⟨res, st1⟩
  cases res with
  | error e =>
      simp only [get_antiklepto_host_nonce, run_bind, hq] at h
      simp at h
  | ok req =>
      simp only [get_antiklepto_host_nonce, run_bind, hq, modifyS, run_pure] at h
      rcases req with r1 | r1 | q | _
      · simp_all [throwE]
      · simp_all [throwE]
      · rcases q with _ | q2
        · simp_all [throwE]
        · rcases q2 with r2 | r2 | r2 | r2 | _ <;> simp_all [throwE, run_pure]
          all_goals try rw [← h.2]
      · simp_all [throwE]

/-- Does a request match the variant `get_tx_input` demands? -/
def isSignInputReq : Request → Bool
  | Request.btcSignInput _ => true
  | _ => false

/-- Does a request match the variant `get_tx_output` demands? -/
def isSignOutputReq : Request → Bool
  | Request.btcSignOutput _ => true
  | _ => false

/-- Does a request match the variant `get_prevtx_init` demands? -/
def isPrevtxInitReq : Request → Bool
  | Request.btc (some (BtcRequest.prevtxInit _)) => true
  | _ => false

/-- Does a request match the variant `get_prevtx_input` demands? -/
def isPrevtxInputReq : Request → Bool
  | Request.btc (some (BtcRequest.prevtxInput _)) => true
  | _ => false

/-- Does a request match the variant `get_prevtx_output` demands? -/
def isPrevtxOutputReq : Request → Bool
  | Request.btc (some (BtcRequest.prevtxOutput _)) => true
  | _ => false

/-- Does a request match the variant `get_antiklepto_host_nonce` demands? -/
def isAntikleptoReq : Request → Bool
  | Request.btc (some (BtcRequest.antikleptoSignature _)) => true
  | _ => false

theorem get_tx_input_wrong_variant (index : Nat) (st : St) (req : Request)
    (rest : List Request) (hh : st.host = req :: rest)
    (hbad : isSignInputReq req = false) :
    (get_tx_input index st).1 = Except.error Error.invalidState ∧
    (get_tx_input index st).2.trace =
      st.trace ++ [sentHint st.resp NextType.input index none] := by
  have e1 := run_get_request_ok NextType.input index none st req rest hh
  simp only [get_tx_input, run_bind, e1, modifyS, run_pure]
  cases req <;> simp_all [isSignInputReq, throwE, accessorOutState, sentHint]

theorem get_tx_output_wrong_variant (index : Nat) (st : St) (req : Request)
    (rest : List Request) (hh : st.host = req :: rest)
    (hbad : isSignOutputReq req = false) :
    (get_tx_output index st).1 = Except.error Error.invalidState ∧
    (get_tx_output index st).2.trace =
      st.trace ++ [sentHint st.resp NextType.output index none] := by
  have e1 := run_get_request_ok NextType.output index none st req rest hh
  simp only [get_tx_output, run_bind, e1, modifyS, run_pure]
  cases req <;> simp_all [isSignOutputReq, throwE, accessorOutState, sentHint]

theorem get_prevtx_init_wrong_variant (index : Nat) (st : St) (req : Request)
    (rest : List Request) (hh : st.host = req :: rest)
    (hbad : isPrevtxInitReq req = false) :
    (get_prevtx_init index st).1 = Except.error Error.invalidState ∧
    (get_prevtx_init index st).2.trace =
      st.trace ++ [sentHint st.resp NextType.prevtxInit index none] := by
  have hh1 : ({ st with resp := { st.resp with
      next := { st.resp.next with type := NextType.prevtxInit, index := index } } } : St).host
      = req :: rest := hh
  have e1 := run_get_request_ok NextType.prevtxInit index none _ req rest hh1
  simp only [get_prevtx_init, run_bind, modifyS, e1, run_pure]
  rcases req with r1 | r1 | q | _
  · simp_all [isPrevtxInitReq, throwE, accessorOutState, sentHint, stagedNext]
  · simp_all [isPrevtxInitReq, throwE, accessorOutState, sentHint, stagedNext]
  · rcases q with _ | q2
    · simp_all [isPrevtxInitReq, throwE, accessorOutState, sentHint, stagedNext]
    · rcases q2 with r2 | r2 | r2 | r2 | _ <;>
        simp_all [isPrevtxInitReq, throwE, accessorOutState, sentHint, stagedNext]
  · simp_all [isPrevtxInitReq, throwE, accessorOutState, sentHint, stagedNext]

theorem get_prevtx_input_wrong_variant (i k : Nat) (st : St) (req : Request)
    (rest : List Request) (hh : st.host = req :: rest)
    (hbad : isPrevtxInputReq req = false) :
    (get_prevtx_input i k st).1 = Except.error Error.invalidState ∧
    (get_prevtx_input i k st).2.trace =
      st.trace ++ [sentHint st.resp NextType.prevtxInput i (some k)] := by
  have e1 := run_get_request_ok NextType.prevtxInput i (some k) st req rest hh
  simp only [get_prevtx_input, run_bind, e1, modifyS, run_pure]
  rcases req with r1 | r1 | q | _
  · simp_all [isPrevtxInputReq, throwE, accessorOutState, sentHint]
  · simp_all [isPrevtxInputReq, throwE, accessorOutState, sentHint]
  · rcases q with _ | q2
    · simp_all [isPrevtxInputReq, throwE, accessorOutState, sentHint]
    · rcases q2 with r2 | r2 | r2 | r2 | _ <;>
        simp_all [isPrevtxInputReq, throwE, accessorOutState, sentHint]
  · simp_all [isPrevtxInputReq, throwE, accessorOutState, sentHint]

theorem get_prevtx_output_wrong_variant (i k : Nat) (st : St) (req : Request)
    (rest : List Request) (hh : st.host = req :: rest)
    (hbad : isPrevtxOutputReq req = false) :
    (get_prevtx_output i k st).1 = Except.error Error.invalidState ∧
    (get_prevtx_output i k st).2.trace =
      st.trace ++ [sentHint st.resp NextType.prevtxOutput i (some k)] := by
  have e1 := run_get_request_ok NextType.prevtxOutput i (some k) st req rest hh
  simp only [get_prevtx_output, run_bind, e1, modifyS, run_pure]
  rcases req with r1 | r1 | q | _
  · simp_all [isPrevtxOutputReq, throwE, accessorOutState, sentHint]
  · simp_all [isPrevtxOutputReq, throwE, accessorOutState, sentHint]
  · rcases q with _ | q2
    · simp_all [isPrevtxOutputReq, throwE, accessorOutState, sentHint]
    · rcases q2 with r2 | r2 | r2 | r2 | _ <;>
        simp_all [isPrevtxOutputReq, throwE, accessorOutState, sentHint]
  · simp_all [isPrevtxOutputReq, throwE, accessorOutState, sentHint]

theorem get_antiklepto_wrong_variant (index : Nat) (st : St) (req : Request)
    (rest : List Request) (hh : st.host = req :: rest)
    (hbad : isAntikleptoReq req = false) :
    (get_antiklepto_host_nonce index st).1 = Except.error Error.invalidState ∧
    (get_antiklepto_host_nonce index st).2.trace =
      st.trace ++ [sentHint st.resp NextType.hostNonce index none] := by
  have e1 := run_get_request_ok NextType.hostNonce index none st req rest hh
  simp only [get_antiklepto_host_nonce, run_bind, e1, modifyS, run_pure]
  rcases req with r1 | r1 | q | _
  · simp_all [isAntikleptoReq, throwE, accessorOutState, sentHint]
  · simp_all [isAntikleptoReq, throwE, accessorOutState, sentHint]
  · rcases q with _ | q2
    · simp_all [isAntikleptoReq, throwE, accessorOutState, sentHint]
    · rcases q2 with r2 | r2 | r2 | r2 | _ <;>
        simp_all [isAntikleptoReq, throwE, accessorOutState, sentHint]
  · simp_all [isAntikleptoReq, throwE, accessorOutState, sentHint]

/-! ## Claim C8: the wrap flag and envelopes -/

/-- **C8**: every outgoing `SignNext` hint is wrapped in a `BtcResponse`
envelope iff the `wrap` flag is set at send time, and after a successful
exchange each typed accessor sets `wrap` to match the envelope of the next
expected message: false after `get_tx_input`/`get_tx_output`, true after
`get_prevtx_init`/`get_prevtx_input`/`get_prevtx_output`/
`get_antiklepto_host_nonce`. -/
theorem C8_wrap_flag :
    (∀ (typ index : Nat) (pidx : Option Nat) (st : St),
      ∃ n : BtcSignNextResponse,
      ((get_request typ index pidx st).2).trace = st.trace ++
        [Event.sent (if st.resp.wrap then Response.btc (BtcResponse.signNext n)
          else Response.btcSignNext n)]) ∧
    (∀ (index : Nat) (st st' : St) (r : BtcSignInputRequest),
      get_tx_input index st = (Except.ok r, st') → st'.resp.wrap = false) ∧
    (∀ (index : Nat) (st st' : St) (r : BtcSignOutputRequest),
      get_tx_output index st = (Except.ok r, st') → st'.resp.wrap = false) ∧
    (∀ (index : Nat) (st st' : St) (r : BtcPrevTxInitRequest),
      get_prevtx_init index st = (Except.ok r, st') → st'.resp.wrap = true) ∧
    (∀ (i k : Nat) (st st' : St) (r : BtcPrevTxInputRequest),
      get_prevtx_input i k st = (Except.ok r, st') → st'.resp.wrap = true) ∧
    (∀ (i k : Nat) (st st' : St) (r : BtcPrevTxOutputRequest),
      get_prevtx_output i k st = (Except.ok r, st') → st'.resp.wrap = true) ∧
    (∀ (index : Nat) (st st' : St) (r : AntiKleptoSignatureRequest),
      get_antiklepto_host_nonce index st = (Except.ok r, st') → st'.resp.wrap = true) := by
  refine ⟨?_, get_tx_input_wrap, get_tx_output_wrap, get_prevtx_init_wrap,
    get_prevtx_input_wrap, get_prevtx_output_wrap, get_antiklepto_host_nonce_wrap⟩
  intro typ index pidx st
  refine ⟨stagedNext st.resp.next typ index pidx, ?_⟩
  rcases hcase : st.host with _ | ⟨q, rest⟩
  · rw [run_get_request_err typ index pidx st hcase]
    simp [NextResponse.to_protobuf]
  · rw [run_get_request_ok typ index pidx st q rest hcase]
    simp [NextResponse.to_protobuf]

/-- Witness fixture: a state offering a `SignInput` request. -/
def wStIn : St :=
  { host := [Request.btcSignInput wInput], resp := initResponse, trace := [] }

/-- Witness fixture: a concrete output record. -/
def wOutput : BtcSignOutputRequest :=
  { ours := false, type := 0, value := 100000000,
    payload := List.replicate 20 0x11, keypath := [], script_config_index := 0 }

/-- Witness fixture: a state offering a `SignOutput` request. -/
def wStOut : St :=
  { host := [Request.btcSignOutput wOutput], resp := initResponse, trace := [] }

/-- Witness fixture: a state offering a `PrevtxInput` request. -/
def wStPin : St :=
  { host := [Request.btc (some (BtcRequest.prevtxInput wPrevtxIn))],
    resp := initResponse, trace := [] }

/-- Witness fixture: a state offering a `PrevtxOutput` request. -/
def wStPout : St :=
  { host := [Request.btc (some (BtcRequest.prevtxOutput wPrevtxOut))],
    resp := initResponse, trace := [] }

/-- Witness fixture: a state offering an `AntikleptoSignature` request. -/
def wStNonce : St :=
  { host := [Request.btc (some (BtcRequest.antikleptoSignature { host_nonce := [7] }))],
    resp := initResponse, trace := [] }

theorem C8_witness :
    (∃ n : BtcSignNextResponse,
      ((get_request NextType.input 0 none wStFramer).2).trace = wStFramer.trace ++
        [Event.sent (if wStFramer.resp.wrap then Response.btc (BtcResponse.signNext n)
          else Response.btcSignNext n)]) ∧
    ((get_tx_input 0 wStIn).2).resp.wrap = false ∧
    ((get_tx_output 0 wStOut).2).resp.wrap = false ∧
    ((get_prevtx_init 0 wSt).2).resp.wrap = true ∧
    ((get_prevtx_input 0 0 wStPin).2).resp.wrap = true ∧
    ((get_prevtx_output 0 0 wStPout).2).resp.wrap = true ∧
    ((get_antiklepto_host_nonce 0 wStNonce).2).resp.wrap = true :=
  ⟨C8_wrap_flag.1 NextType.input 0 none wStFramer,
   C8_wrap_flag.2.1 0 wStIn (get_tx_input 0 wStIn).2 wInput rfl,
   C8_wrap_flag.2.2.1 0 wStOut (get_tx_output 0 wStOut).2 wOutput rfl,
   C8_wrap_flag.2.2.2.1 0 wSt (get_prevtx_init 0 wSt).2 wPrevtxInit rfl,
   C8_wrap_flag.2.2.2.2.1 0 0 wStPin (get_prevtx_input 0 0 wStPin).2 wPrevtxIn rfl,
   C8_wrap_flag.2.2.2.2.2.1 0 0 wStPout (get_prevtx_output 0 0 wStPout).2 wPrevtxOut rfl,
   C8_wrap_flag.2.2.2.2.2.2 0 wStNonce (get_antiklepto_host_nonce 0 wStNonce).2
     { host_nonce := [7] } rfl⟩

/-! ## Whole-transaction data and the happy-path run lemmas -/

/-- A streamed previous transaction. -/
structure PrevTxData where
  init : BtcPrevTxInitRequest
  inputs : List BtcPrevTxInputRequest
  outputs : List BtcPrevTxOutputRequest
deriving DecidableEq

/-- One transaction input together with the host-side data streamed for it:
its previous transaction and (when anti-klepto is armed) the host nonce. -/
structure TxInputData where
  input : BtcSignInputRequest
  prevtx : PrevTxData
  hostNonce : List Nat
deriving DecidableEq

/-- A transaction as the host would stream it. -/
structure TxData where
  coin : Nat
  version : Nat
  locktime : Nat
  inputs : List TxInputData
  outputs : List BtcSignOutputRequest
deriving DecidableEq

/-- The init request announcing the transaction. -/
def TxData.initRequest (t : TxData) : BtcSignInitRequest :=
  { coin := t.coin, version := t.version, num_inputs := t.inputs.length,
    num_outputs := t.outputs.length, locktime := t.locktime }

/-- Host messages for one input during pass 1: the input record followed by
its streamed previous transaction. -/
def inputPass1Msgs (d : TxInputData) : List Request :=
  Request.btcSignInput d.input ::
    prevtxMsgs d.prevtx.init d.prevtx.inputs d.prevtx.outputs

/-- Host messages for the output phase. -/
def outputMsgs (outs : List BtcSignOutputRequest) : List Request :=
  outs.map Request.btcSignOutput

/-- Host messages for one input during pass 2: the input record again and,
when anti-klepto is armed, the host nonce reply. -/
def inputPass2Msgs (d : TxInputData) : List Request :=
  Request.btcSignInput d.input ::
  (if d.input.host_nonce_commitment.isSome then
    [Request.btc (some (BtcRequest.antikleptoSignature { host_nonce := d.hostNonce }))]
   else [])

/-- The whole host message stream of a session. -/
def hostMsgs (t : TxData) : List Request :=
  (t.inputs.map inputPass1Msgs).flatten ++ outputMsgs t.outputs ++
  (t.inputs.map inputPass2Msgs).flatten

/-- The per-input wellformedness making the prevtx verifier succeed: matching
counts, matching value at `prev_out_index`, matching txid. -/
def TxInputData.wf (d : TxInputData) : Prop :=
  d.prevtx.inputs.length = d.prevtx.init.num_inputs ∧
  d.prevtx.outputs.length = d.prevtx.init.num_outputs ∧
  1 ≤ d.prevtx.init.num_inputs ∧ 1 ≤ d.prevtx.init.num_outputs ∧
  valuesOkB d.input 0 d.prevtx.outputs = true ∧
  dsha256 (prevtxSerialization d.prevtx.init d.prevtx.inputs d.prevtx.outputs) =
    d.input.prev_out_hash

/-- An environment in which every native call succeeds: pass-2 signing
returns `sigf`, the anti-klepto re-sign returns `akf`. -/
def benignEnv (sigf : BtcSignInputRequest → Bool → List Nat × List Nat)
    (akf : AntiKleptoSignatureRequest → List Nat) : Env :=
  { keystore_locked := false,
    sign_init := fun _ => Except.ok (),
    sign_input_pass1 := fun _ _ => Except.ok (),
    sign_output := fun _ _ => Except.ok (),
    sign_input_pass2 := fun r b => Except.ok (sigf r b),
    sign_antiklepto := fun r => Except.ok (akf r) }

/-- The events of one pass-1 input exchange (input hint, prevtx streaming,
verification marker). -/
def pass1InputEvents (w : Bool) (i : Nat) (d : TxInputData) : List Event :=
  sentHint { next := defaultNext, wrap := w } NextType.input i none ::
  (prevtxSent { next := defaultNext, wrap := false } i d.prevtx.init.num_inputs
      d.prevtx.init.num_outputs ++ [Event.prevtxVerified i])

/-- The events of the whole pass-1 loop from start index `i`; only the first
hint's envelope depends on the incoming `wrap`. -/
def pass1Events (w : Bool) (i : Nat) : List TxInputData → List Event
  | [] => []
  | d :: ds => pass1InputEvents w i d ++ pass1Events true (i + 1) ds

theorem run_pass1Loop (env : Env) (request : BtcSignInitRequest)
    (hp1 : ∀ r b, env.sign_input_pass1 r b = Except.ok ()) :
    ∀ (ds : List TxInputData) (i : Nat) (st : St) (rest : List Request),
    st.host = (ds.map inputPass1Msgs).flatten ++ rest →
    st.resp.next = defaultNext →
    (∀ d ∈ ds, d.wf) →
    pass1Loop env request ds.length i st =
      (Except.ok (),
       { host := rest,
         resp := { next := defaultNext,
                   wrap := if ds.isEmpty then st.resp.wrap else true },
         trace := st.trace ++ pass1Events st.resp.wrap i ds })
  | [], i, st, rest, hh, hr, _ => by
      cases st with
      | mk host resp trace =>
          cases resp
          simp_all [pass1Loop, run_pure, pass1Events]
  | d :: ds, i, st, rest, hh, hr, hwf => by
      have hh1 : st.host = Request.btcSignInput d.input ::
          (prevtxMsgs d.prevtx.init d.prevtx.inputs d.prevtx.outputs ++
            ((ds.map inputPass1Msgs).flatten ++ rest)) := by
        simpa [inputPass1Msgs, List.append_assoc] using hh
      have e1 := run_get_tx_input_ok i st d.input _ hh1
      obtain ⟨hw1, hw2, hw3, hw4, hw5, hw6⟩ := hwf d (List.mem_cons_self d ds)
      have e2 := run_handle_prevtx_ok i d.input d.prevtx.init d.prevtx.inputs
        d.prevtx.outputs
        (accessorOutState st
          (prevtxMsgs d.prevtx.init d.prevtx.inputs d.prevtx.outputs ++
            ((ds.map inputPass1Msgs).flatten ++ rest))
          NextType.input i none false)
        ((ds.map inputPass1Msgs).flatten ++ rest)
        (by simp [accessorOutState]) hw1 hw2 hw3 hw4 hw5 hw6
      have e3 := run_pass1Loop env request hp1 ds (i + 1)
        (prevtxOutSt
          (accessorOutState st
            (prevtxMsgs d.prevtx.init d.prevtx.inputs d.prevtx.outputs ++
              ((ds.map inputPass1Msgs).flatten ++ rest))
            NextType.input i none false)
          ((ds.map inputPass1Msgs).flatten ++ rest) i
          d.prevtx.init.num_inputs d.prevtx.init.num_outputs)
        rest (by simp [prevtxOutSt]) (by simp [prevtxOutSt])
        (fun d2 hd2 => hwf d2 (List.mem_cons_of_mem d hd2))
      simp only [List.length_cons, pass1Loop, run_bind, e1, liftE, hp1, e2, e3]
      cases ds with
      | nil =>
          simp [accessorOutState, prevtxOutSt, pass1Events, pass1InputEvents,
            sentHint, hr, List.append_assoc]
      | cons d2 ds2 =>
          simp [accessorOutState, prevtxOutSt, pass1Events, pass1InputEvents,
            sentHint, hr, List.append_assoc]

/-- The events of the output phase from index `j`; only the first hint's
envelope depends on the incoming `wrap`. -/
def outputsEvents (request : BtcSignInitRequest) (w : Bool) (j : Nat) :
    List BtcSignOutputRequest → List Event
  | [] => []
  | _ :: outs =>
      sentHint { next := defaultNext, wrap := w } NextType.output j none ::
      Event.outputConfirmed j (j == request.num_outputs - 1) ::
      outputsEvents request false (j + 1) outs

theorem run_outputsLoop (env : Env) (request : BtcSignInitRequest)
    (ho : ∀ r b, env.sign_output r b = Except.ok ()) :
    ∀ (outs : List BtcSignOutputRequest) (j : Nat) (st : St) (rest : List Request),
    st.host = outputMsgs outs ++ rest →
    st.resp.next = defaultNext →
    outputsLoop env request outs.length j st =
      (Except.ok (),
       { host := rest,
         resp := { next := defaultNext,
                   wrap := if outs.isEmpty then st.resp.wrap else false },
         trace := st.trace ++ outputsEvents request st.resp.wrap j outs })
  | [], j, st, rest, hh, hr => by
      cases st with
      | mk host resp trace =>
          cases resp
          simp_all [outputsLoop, run_pure, outputMsgs, outputsEvents]
  | o :: outs, j, st, rest, hh, hr => by
      have hh1 : st.host = Request.btcSignOutput o :: (outputMsgs outs ++ rest) := by
        simpa [outputMsgs] using hh
      have e1 := run_get_tx_output_ok j st o _ hh1
      simp only [List.length_cons, outputsLoop, run_bind, e1, liftE, ho, emit]
      rw [run_outputsLoop env request ho outs (j + 1) _ rest
        (by simp [accessorOutState]) (by simp [accessorOutState])]
      cases outs with
      | nil =>
          simp [accessorOutState, outputsEvents, sentHint, hr, List.append_assoc]
      | cons o2 outs2 =>
          simp [accessorOutState, outputsEvents, sentHint, hr, List.append_assoc]

/-- Simulation of the pass-2 loop: the events it sends and the final staged
`NextResponse`, for remaining inputs `ds` at index `i` with incoming staged
response `r`.  Matches the source's staging exactly: each iteration sends the
incoming staged hint (carrying the previous input's signature), runs pass-2
signing, optionally runs the anti-klepto exchange, and stages the fresh
signature. -/
def pass2Sim (sigf : BtcSignInputRequest → Bool → List Nat × List Nat)
    (akf : AntiKleptoSignatureRequest → List Nat) (request : BtcSignInitRequest) :
    List TxInputData → Nat → NextResponse → List Event × NextResponse
  | [], _, r => ([], r)
  | d :: ds, i, r =>
      let hint1 := sentHint r NextType.input i none
      let sigCom := sigf d.input (i == request.num_inputs - 1)
      if d.input.host_nonce_commitment.isSome then
        let hint2 := sentHint
          { next := { defaultNext with
              anti_klepto_signer_commitment := some { commitment := sigCom.2 } },
            wrap := false } NextType.hostNonce i none
        let r2 : NextResponse :=
          { next := { defaultNext with
              has_signature := true,
              signature := akf { host_nonce := d.hostNonce } },
            wrap := true }
        let res := pass2Sim sigf akf request ds (i + 1) r2
        (hint1 :: Event.pass2Called i :: hint2 :: res.1, res.2)
      else
        let r2 : NextResponse :=
          { next := { defaultNext with
              has_signature := true,
              signature := sigCom.1 },
            wrap := false }
        let res := pass2Sim sigf akf request ds (i + 1) r2
        (hint1 :: Event.pass2Called i :: res.1, res.2)

theorem run_pass2Loop (env : Env) (request : BtcSignInitRequest)
    (sigf : BtcSignInputRequest → Bool → List Nat × List Nat)
    (akf : AntiKleptoSignatureRequest → List Nat)
    (hp2 : ∀ r b, env.sign_input_pass2 r b = Except.ok (sigf r b))
    (hak : ∀ r, env.sign_antiklepto r = Except.ok (akf r)) :
    ∀ (ds : List TxInputData) (i : Nat) (st : St) (rest : List Request),
    st.host = (ds.map inputPass2Msgs).flatten ++ rest →
    pass2Loop env request ds.length i st =
      (Except.ok (),
       { host := rest, resp := (pass2Sim sigf akf request ds i st.resp).2,
         trace := st.trace ++ (pass2Sim sigf akf request ds i st.resp).1 })
  | [], i, st, rest, hh => by
      cases st
      simp_all [pass2Loop, run_pure, pass2Sim]
  | d :: ds, i, st, rest, hh => by
      rcases hnc : d.input.host_nonce_commitment with _ | nc
      · have hh1 : st.host = Request.btcSignInput d.input ::
            ((ds.map inputPass2Msgs).flatten ++ rest) := by
          simpa [inputPass2Msgs, hnc, List.append_assoc] using hh
        have e1 := run_get_tx_input_ok i st d.input _ hh1
        simp only [List.length_cons, pass2Loop, run_bind, e1, emit, liftE, hp2,
          hnc, Option.isSome_none, Bool.false_eq_true, if_false, modifyS]
        rw [run_pass2Loop env request sigf akf hp2 hak ds (i + 1) _ rest
          (by simp [accessorOutState])]
        simp [pass2Sim, hnc, accessorOutState, sentHint, List.append_assoc]
      · have hh1 : st.host = Request.btcSignInput d.input ::
            (Request.btc (some (BtcRequest.antikleptoSignature
              { host_nonce := d.hostNonce })) ::
              ((ds.map inputPass2Msgs).flatten ++ rest)) := by
          simpa [inputPass2Msgs, hnc, List.append_assoc] using hh
        have e1 := run_get_tx_input_ok i st d.input _ hh1
        simp only [List.length_cons, pass2Loop, run_bind, e1, emit, liftE, hp2,
          hnc, Option.isSome_some, if_true, modifyS]
        rw [run_get_antiklepto_host_nonce_ok i _ { host_nonce := d.hostNonce }
          ((ds.map inputPass2Msgs).flatten ++ rest) (by simp [accessorOutState])]
        simp only [run_bind, liftE, hak, modifyS]
        rw [run_pass2Loop env request sigf akf hp2 hak ds (i + 1) _ rest
          (by simp [accessorOutState])]
        simp [pass2Sim, hnc, accessorOutState, sentHint, stagedNext,
          List.append_assoc]

/-- The staged `NextResponse` at the end of a completed session: the final
pass-2 staging with `type` set to `Done`. -/
def finalResponse (sigf : BtcSignInputRequest → Bool → List Nat × List Nat)
    (akf : AntiKleptoSignatureRequest → List Nat) (t : TxData) : NextResponse :=
  let R := (pass2Sim sigf akf t.initRequest t.inputs 0
    { next := defaultNext, wrap := false }).2
  { next := { R.next with type := NextType.done }, wrap := R.wrap }

/-- All events of a completed session (before the final `sign_reset`). -/
def happyEvents (sigf : BtcSignInputRequest → Bool → List Nat × List Nat)
    (akf : AntiKleptoSignatureRequest → List Nat) (t : TxData) : List Event :=
  pass1Events false 0 t.inputs ++
  outputsEvents t.initRequest true 0 t.outputs ++
  [Event.toast "Transaction\nconfirmed" true] ++
  (pass2Sim sigf akf t.initRequest t.inputs 0
    { next := defaultNext, wrap := false }).1

theorem run_process_happy (sigf : BtcSignInputRequest → Bool → List Nat × List Nat)
    (akf : AntiKleptoSignatureRequest → List Nat) (t : TxData) (st0 : St)
    (rest : List Request)
    (hh : st0.host = hostMsgs t ++ rest)
    (hwf : ∀ d ∈ t.inputs, d.wf)
    (hinne : t.inputs ≠ []) (houtne : t.outputs ≠ []) :
    _process (benignEnv sigf akf) t.initRequest st0 =
      (Except.ok (NextResponse.to_protobuf (finalResponse sigf akf t)),
       { host := rest, resp := finalResponse sigf akf t,
         trace := st0.trace ++ happyEvents sigf akf t }) := by
  have hin : t.inputs.isEmpty = false := by simpa using hinne
  have hout : t.outputs.isEmpty = false := by simpa using houtne
  have hn1 : t.initRequest.num_inputs = t.inputs.length := rfl
  have hn2 : t.initRequest.num_outputs = t.outputs.length := rfl
  have hkey : (benignEnv sigf akf).keystore_locked = false := rfl
  have hsi : ∀ q, (benignEnv sigf akf).sign_init q = Except.ok () := fun _ => rfl
  simp only [_process, run_bind, liftE, modifyS, emit, getS, run_pure, hkey, hsi,
    Bool.false_eq_true, if_false, hn1, hn2]
  rw [run_pass1Loop (benignEnv sigf akf) t.initRequest (fun _ _ => rfl) t.inputs 0 _
    (outputMsgs t.outputs ++ ((t.inputs.map inputPass2Msgs).flatten ++ rest))
    (by simp [hh, hostMsgs, List.append_assoc]) (by simp [initResponse]) hwf]
  simp only [hin, Bool.false_eq_true, if_false]
  rw [run_outputsLoop (benignEnv sigf akf) t.initRequest (fun _ _ => rfl) t.outputs 0 _
    ((t.inputs.map inputPass2Msgs).flatten ++ rest) (by simp) (by simp)]
  simp only [hout, Bool.false_eq_true, if_false]
  rw [run_pass2Loop (benignEnv sigf akf) t.initRequest sigf akf (fun _ _ => rfl)
    (fun _ => rfl) t.inputs 0 _ rest (by simp)]
  simp [initResponse, finalResponse, happyEvents, List.append_assoc]

theorem run_process_happy_full
    (sigf : BtcSignInputRequest → Bool → List Nat × List Nat)
    (akf : AntiKleptoSignatureRequest → List Nat) (t : TxData) (st0 : St)
    (rest : List Request)
    (hh : st0.host = hostMsgs t ++ rest)
    (hwf : ∀ d ∈ t.inputs, d.wf)
    (hinne : t.inputs ≠ []) (houtne : t.outputs ≠ []) :
    process (benignEnv sigf akf) t.initRequest st0 =
      (Except.ok (NextResponse.to_protobuf (finalResponse sigf akf t)),
       { host := rest, resp := finalResponse sigf akf t,
         trace := st0.trace ++ happyEvents sigf akf t ++ [Event.signReset] }) := by
  simp [process, run_process_happy sigf akf t st0 rest hh hwf hinne houtne,
    List.append_assoc]

/-! ## Counting delivered signatures -/

/-- Does a wire response carry `has_signature = true`? -/
def respHasSig : Response → Bool
  | Response.btcSignNext n => n.has_signature
  | Response.btc (BtcResponse.signNext n) => n.has_signature

/-- Is an event the delivery of a response carrying a signature? -/
def isSigSent : Event → Bool
  | Event.sent r => respHasSig r
  | _ => false

/-- How many host round-trips of this trace delivered a signature. -/
def sigCount (evs : List Event) : Nat := evs.countP isSigSent

/-- Is the final response wrapped in a `BtcResponse` envelope? -/
def isWrapped : Response → Bool
  | Response.btc _ => true
  | Response.btcSignNext _ => false

/-- Did the last input of the list arm the anti-klepto protocol? -/
def lastArmed : List TxInputData → Bool
  | [] => false
  | d :: ds => if ds.isEmpty then d.input.host_nonce_commitment.isSome else lastArmed ds

theorem respHasSig_to_protobuf (r : NextResponse) :
    respHasSig (NextResponse.to_protobuf r) = r.next.has_signature := by
  by_cases h : r.wrap <;> simp [NextResponse.to_protobuf, respHasSig, h]

theorem isWrapped_to_protobuf (r : NextResponse) :
    isWrapped (NextResponse.to_protobuf r) = r.wrap := by
  by_cases h : r.wrap <;> simp [NextResponse.to_protobuf, isWrapped, h]

theorem isSigSent_sentHint (r0 : NextResponse) (typ index : Nat) (pidx : Option Nat) :
    isSigSent (sentHint r0 typ index pidx) = r0.next.has_signature := by
  cases pidx <;> simp [sentHint, isSigSent, respHasSig_to_protobuf, stagedNext]

theorem noSig_prevtxInputsSent (i : Nat) :
    ∀ (k n : Nat) (e : Event), e ∈ prevtxInputsSent i k n → isSigSent e = false
  | _, 0, e, he => absurd he (by simp [prevtxInputsSent])
  | k, n + 1, e, he => by
      rcases (by simpa [prevtxInputsSent] using he : _ ∨ _) with h | h
      · subst h; simp [isSigSent, respHasSig, defaultNext]
      · exact noSig_prevtxInputsSent i (k + 1) n e h

theorem noSig_prevtxOutputsSent (i : Nat) :
    ∀ (k n : Nat) (e : Event), e ∈ prevtxOutputsSent i k n → isSigSent e = false
  | _, 0, e, he => absurd he (by simp [prevtxOutputsSent])
  | k, n + 1, e, he => by
      rcases (by simpa [prevtxOutputsSent] using he : _ ∨ _) with h | h
      · subst h; simp [isSigSent, respHasSig, defaultNext]
      · exact noSig_prevtxOutputsSent i (k + 1) n e h

theorem noSig_prevtxSent (r0 : NextResponse) (hr : r0.next.has_signature = false)
    (i nIn nOut : Nat) (e : Event) (he : e ∈ prevtxSent r0 i nIn nOut) :
    isSigSent e = false := by
  rcases (by simpa [prevtxSent] using he : _ ∨ _ ∨ _) with h | h | h
  · subst h; simp [isSigSent, respHasSig_to_protobuf, hr]
  · exact noSig_prevtxInputsSent i 0 nIn e h
  · exact noSig_prevtxOutputsSent i 0 nOut e h

theorem noSig_pass1Events (i : Nat) (ds : List TxInputData) :
    ∀ (w : Bool) (e : Event), e ∈ pass1Events w i ds → isSigSent e = false := by
  induction ds generalizing i with
  | nil => intro w e he; simp [pass1Events] at he
  | cons d ds ih =>
      intro w e he
      rcases (by simpa [pass1Events, pass1InputEvents] using he :
        _ ∨ _ ∨ _ ∨ _) with h | h | h | h
      · subst h; simp [isSigSent_sentHint, defaultNext]
      · exact noSig_prevtxSent { next := defaultNext, wrap := false } rfl i
          d.prevtx.init.num_inputs d.prevtx.init.num_outputs e h
      · subst h; simp [isSigSent]
      · exact ih (i + 1) true e h

theorem noSig_outputsEvents (request : BtcSignInitRequest) :
    ∀ (outs : List BtcSignOutputRequest) (j : Nat) (w : Bool) (e : Event),
    e ∈ outputsEvents request w j outs → isSigSent e = false
  | [], _, _, e, he => absurd he (by simp [outputsEvents])
  | o :: outs, j, w, e, he => by
      rcases (by simpa [outputsEvents] using he : _ ∨ _ ∨ _) with h | h | h
      · subst h; simp [isSigSent_sentHint, defaultNext]
      · subst h; simp [isSigSent]
      · exact noSig_outputsEvents request outs (j + 1) false e h

theorem isSigSent_pass2Called (i : Nat) : isSigSent (Event.pass2Called i) = false :=
  rfl

/-- The response staged after signing without anti-klepto. -/
def sigStaged (sigf : BtcSignInputRequest → Bool → List Nat × List Nat)
    (request : BtcSignInitRequest) (i : Nat) (d : TxInputData) : NextResponse :=
  { next := { defaultNext with
      has_signature := true,
      signature := (sigf d.input (i == request.num_inputs - 1)).1 },
    wrap := false }

/-- The response staged after the anti-klepto exchange. -/
def akStaged (akf : AntiKleptoSignatureRequest → List Nat) (d : TxInputData) :
    NextResponse :=
  { next := { defaultNext with
      has_signature := true,
      signature := akf { host_nonce := d.hostNonce } },
    wrap := true }

theorem pass2Sim_cons_ak (sigf : BtcSignInputRequest → Bool → List Nat × List Nat)
    (akf : AntiKleptoSignatureRequest → List Nat) (request : BtcSignInitRequest)
    (d : TxInputData) (ds : List TxInputData) (i : Nat) (r : NextResponse)
    (hnc : d.input.host_nonce_commitment.isSome = true) :
    pass2Sim sigf akf request (d :: ds) i r =
      (sentHint r NextType.input i none :: Event.pass2Called i ::
        sentHint
          { next := { defaultNext with
              anti_klepto_signer_commitment :=
                some { commitment := (sigf d.input (i == request.num_inputs - 1)).2 } },
            wrap := false }
          NextType.hostNonce i none ::
        (pass2Sim sigf akf request ds (i + 1) (akStaged akf d)).1,
       (pass2Sim sigf akf request ds (i + 1) (akStaged akf d)).2) := by
  simp [pass2Sim, hnc, akStaged]

theorem pass2Sim_cons_plain (sigf : BtcSignInputRequest → Bool → List Nat × List Nat)
    (akf : AntiKleptoSignatureRequest → List Nat) (request : BtcSignInitRequest)
    (d : TxInputData) (ds : List TxInputData) (i : Nat) (r : NextResponse)
    (hnc : d.input.host_nonce_commitment.isSome = false) :
    pass2Sim sigf akf request (d :: ds) i r =
      (sentHint r NextType.input i none :: Event.pass2Called i ::
        (pass2Sim sigf akf request ds (i + 1) (sigStaged sigf request i d)).1,
       (pass2Sim sigf akf request ds (i + 1) (sigStaged sigf request i d)).2) := by
  simp [pass2Sim, hnc, sigStaged]

theorem countSig_pass2Sim (sigf : BtcSignInputRequest → Bool → List Nat × List Nat)
    (akf : AntiKleptoSignatureRequest → List Nat) (request : BtcSignInitRequest) :
    ∀ (ds : List TxInputData) (i : Nat) (r : NextResponse), ds ≠ [] →
    List.countP isSigSent ((pass2Sim sigf akf request ds i r).1) =
      (if r.next.has_signature then 1 else 0) + (ds.length - 1)
  | [], _, _, hne => absurd rfl hne
  | [d], i, r, _ => by
      by_cases hnc : d.input.host_nonce_commitment.isSome <;>
        by_cases hs : r.next.has_signature <;>
        simp [pass2Sim, hnc, hs, List.countP_cons, isSigSent_sentHint,
          isSigSent_pass2Called, defaultNext]
  | d :: d2 :: ds, i, r, _ => by
      have hne2 : d2 :: ds ≠ [] := List.cons_ne_nil d2 ds
      by_cases hnc : d.input.host_nonce_commitment.isSome
      · rw [pass2Sim_cons_ak sigf akf request d (d2 :: ds) i r hnc]
        simp only [List.countP_cons, isSigSent_sentHint, isSigSent_pass2Called]
        rw [countSig_pass2Sim sigf akf request (d2 :: ds) (i + 1) (akStaged akf d)
          hne2]
        by_cases hs : r.next.has_signature <;>
          simp [hs, akStaged, defaultNext, List.length_cons] <;> omega
      · rw [pass2Sim_cons_plain sigf akf request d (d2 :: ds) i r (by simpa using hnc)]
        simp only [List.countP_cons, isSigSent_sentHint, isSigSent_pass2Called]
        rw [countSig_pass2Sim sigf akf request (d2 :: ds) (i + 1)
          (sigStaged sigf request i d) hne2]
        by_cases hs : r.next.has_signature <;>
          simp [hs, sigStaged, defaultNext, List.length_cons] <;> omega

theorem pass2Sim_final_sig (sigf : BtcSignInputRequest → Bool → List Nat × List Nat)
    (akf : AntiKleptoSignatureRequest → List Nat) (request : BtcSignInitRequest) :
    ∀ (ds : List TxInputData) (i : Nat) (r : NextResponse), ds ≠ [] →
    ((pass2Sim sigf akf request ds i r).2).next.has_signature = true
  | [], _, _, hne => absurd rfl hne
  | [d], i, r, _ => by
      by_cases hnc : d.input.host_nonce_commitment.isSome <;>
        simp [pass2Sim, hnc]
  | d :: d2 :: ds, i, r, _ => by
      have hne2 : d2 :: ds ≠ [] := List.cons_ne_nil d2 ds
      by_cases hnc : d.input.host_nonce_commitment.isSome
      · rw [pass2Sim_cons_ak sigf akf request d (d2 :: ds) i r hnc]
        exact pass2Sim_final_sig sigf akf request (d2 :: ds) (i + 1) (akStaged akf d)
          hne2
      · rw [pass2Sim_cons_plain sigf akf request d (d2 :: ds) i r (by simpa using hnc)]
        exact pass2Sim_final_sig sigf akf request (d2 :: ds) (i + 1)
          (sigStaged sigf request i d) hne2

theorem pass2Sim_final_wrap (sigf : BtcSignInputRequest → Bool → List Nat × List Nat)
    (akf : AntiKleptoSignatureRequest → List Nat) (request : BtcSignInitRequest) :
    ∀ (ds : List TxInputData) (i : Nat) (r : NextResponse), ds ≠ [] →
    ((pass2Sim sigf akf request ds i r).2).wrap = lastArmed ds
  | [], _, _, hne => absurd rfl hne
  | [d], i, r, _ => by
      by_cases hnc : d.input.host_nonce_commitment.isSome <;>
        simp [pass2Sim, hnc, lastArmed]
  | d :: d2 :: ds, i, r, _ => by
      have hne2 : d2 :: ds ≠ [] := List.cons_ne_nil d2 ds
      have hl : lastArmed (d :: d2 :: ds) = lastArmed (d2 :: ds) := by
        simp [lastArmed]
      by_cases hnc : d.input.host_nonce_commitment.isSome
      · rw [pass2Sim_cons_ak sigf akf request d (d2 :: ds) i r hnc, hl]
        exact pass2Sim_final_wrap sigf akf request (d2 :: ds) (i + 1)
          (akStaged akf d) hne2
      · rw [pass2Sim_cons_plain sigf akf request d (d2 :: ds) i r (by simpa using hnc),
          hl]
        exact pass2Sim_final_wrap sigf akf request (d2 :: ds) (i + 1)
          (sigStaged sigf request i d) hne2

/-! ## Claims C6 and C10: the completed session -/

/-- **C6**: every valid transaction with `n` inputs processed to completion
emits exactly `n` signatures — `n - 1` delivered on the round-trips that
follow each input's pass-2 signing (the exact schedule is pinned by the trace
equality) and the `n`-th on the final response — and terminates with a
response of type `Done`. -/
theorem C6_n_signatures (sigf : BtcSignInputRequest → Bool → List Nat × List Nat)
    (akf : AntiKleptoSignatureRequest → List Nat) (t : TxData) (st0 : St)
    (hh : st0.host = hostMsgs t) (htr : st0.trace = [])
    (hwf : ∀ d ∈ t.inputs, d.wf)
    (hinne : t.inputs ≠ []) (houtne : t.outputs ≠ []) :
    (process (benignEnv sigf akf) t.initRequest st0).1 =
      Except.ok (NextResponse.to_protobuf (finalResponse sigf akf t)) ∧
    (finalResponse sigf akf t).next.type = NextType.done ∧
    (finalResponse sigf akf t).next.has_signature = true ∧
    sigCount ((process (benignEnv sigf akf) t.initRequest st0).2.trace) =
      t.inputs.length - 1 ∧
    (process (benignEnv sigf akf) t.initRequest st0).2.trace =
      happyEvents sigf akf t ++ [Event.signReset] := by
  have hrun := run_process_happy_full sigf akf t st0 [] (by simpa using hh) hwf
    hinne houtne
  rw [hrun]
  refine ⟨rfl, rfl, ?_, ?_, by simp [htr]⟩
  · exact pass2Sim_final_sig sigf akf t.initRequest t.inputs 0
      { next := defaultNext, wrap := false } hinne
  · have h1 : List.countP isSigSent (pass1Events false 0 t.inputs) = 0 :=
      List.countP_eq_zero.mpr fun a ha => by
        simp [noSig_pass1Events 0 t.inputs false a ha]
    have h2 : List.countP isSigSent (outputsEvents t.initRequest true 0 t.outputs) = 0 :=
      List.countP_eq_zero.mpr fun a ha => by
        simp [noSig_outputsEvents t.initRequest t.outputs 0 true a ha]
    have h3 := countSig_pass2Sim sigf akf t.initRequest t.inputs 0
      { next := defaultNext, wrap := false } hinne
    simp only [htr, List.nil_append, happyEvents, sigCount, List.countP_append,
      List.countP_cons, h1, h2, h3]
    simp [isSigSent, defaultNext]

/-- **C10**: the final `Done` response is wrapped in a `BtcResponse` envelope
iff the last input carried a `host_nonce_commitment` (the anti-klepto nonce
exchange set `wrap` to true); otherwise it is sent as a bare `BtcSignNext`
response. -/
theorem C10_done_envelope (sigf : BtcSignInputRequest → Bool → List Nat × List Nat)
    (akf : AntiKleptoSignatureRequest → List Nat) (t : TxData) (st0 : St)
    (hh : st0.host = hostMsgs t)
    (hwf : ∀ d ∈ t.inputs, d.wf)
    (hinne : t.inputs ≠ []) (houtne : t.outputs ≠ []) :
    (process (benignEnv sigf akf) t.initRequest st0).1 =
      Except.ok (NextResponse.to_protobuf (finalResponse sigf akf t)) ∧
    isWrapped (NextResponse.to_protobuf (finalResponse sigf akf t)) =
      lastArmed t.inputs := by
  have hrun := run_process_happy_full sigf akf t st0 [] (by simpa using hh) hwf
    hinne houtne
  refine ⟨by rw [hrun], ?_⟩
  rw [isWrapped_to_protobuf]
  show (finalResponse sigf akf t).wrap = lastArmed t.inputs
  unfold finalResponse
  exact pass2Sim_final_wrap sigf akf t.initRequest t.inputs 0
    { next := defaultNext, wrap := false } hinne

/-- Witness fixture: pass-2 signing result. -/
def wSigF : BtcSignInputRequest → Bool → List Nat × List Nat :=
  fun _ _ => ([0xAA], [0xBB])

/-- Witness fixture: anti-klepto re-sign result. -/
def wAkF : AntiKleptoSignatureRequest → List Nat := fun _ => [0xCC]

/-- Witness fixture: one full input with its prevtx stream. -/
def wTxIn : TxInputData :=
  { input := wInput,
    prevtx := { init := wPrevtxInit, inputs := [wPrevtxIn], outputs := [wPrevtxOut] },
    hostNonce := [] }

/-- Witness fixture: a 1-input, 1-output transaction. -/
def wTx : TxData :=
  { coin := 0, version := 1, locktime := 0, inputs := [wTxIn], outputs := [wOutput] }

/-- Witness fixture: session state streaming `wTx`. -/
def wStTx : St := { host := hostMsgs wTx, resp := initResponse, trace := [] }

theorem wTxIn_wf : ∀ d ∈ wTx.inputs, d.wf := by
  intro d hd
  rw [show wTx.inputs = [wTxIn] from rfl, List.mem_singleton] at hd
  subst hd
  exact ⟨rfl, rfl, by decide, by decide, by decide, rfl⟩

theorem C6_witness :
    (process (benignEnv wSigF wAkF) wTx.initRequest wStTx).1 =
      Except.ok (NextResponse.to_protobuf (finalResponse wSigF wAkF wTx)) ∧
    (finalResponse wSigF wAkF wTx).next.type = NextType.done ∧
    (finalResponse wSigF wAkF wTx).next.has_signature = true ∧
    sigCount ((process (benignEnv wSigF wAkF) wTx.initRequest wStTx).2.trace) =
      wTx.inputs.length - 1 ∧
    (process (benignEnv wSigF wAkF) wTx.initRequest wStTx).2.trace =
      happyEvents wSigF wAkF wTx ++ [Event.signReset] :=
  C6_n_signatures wSigF wAkF wTx wStTx rfl rfl wTxIn_wf
    (List.cons_ne_nil _ _) (List.cons_ne_nil _ _)

/-- Witness fixture: the witness input with anti-klepto armed. -/
def wInputAk : BtcSignInputRequest :=
  { wInput with host_nonce_commitment := some (List.replicate 32 2) }

/-- Witness fixture: a full anti-klepto input with its prevtx stream. -/
def wTxInAk : TxInputData :=
  { input := wInputAk,
    prevtx := { init := wPrevtxInit, inputs := [wPrevtxIn], outputs := [wPrevtxOut] },
    hostNonce := List.replicate 32 3 }

/-- Witness fixture: a 1-input anti-klepto transaction. -/
def wTxAk : TxData :=
  { coin := 0, version := 1, locktime := 0, inputs := [wTxInAk],
    outputs := [wOutput] }

/-- Witness fixture: session state streaming `wTxAk`. -/
def wStTxAk : St := { host := hostMsgs wTxAk, resp := initResponse, trace := [] }

theorem wTxInAk_wf : ∀ d ∈ wTxAk.inputs, d.wf := by
  intro d hd
  rw [show wTxAk.inputs = [wTxInAk] from rfl, List.mem_singleton] at hd
  subst hd
  exact ⟨rfl, rfl, by decide, by decide, by decide, rfl⟩

theorem C10_witness :
    (process (benignEnv wSigF wAkF) wTxAk.initRequest wStTxAk).1 =
      Except.ok (NextResponse.to_protobuf (finalResponse wSigF wAkF wTxAk)) ∧
    isWrapped (NextResponse.to_protobuf (finalResponse wSigF wAkF wTxAk)) =
      lastArmed wTxAk.inputs :=
  C10_done_envelope wSigF wAkF wTxAk wStTxAk rfl wTxInAk_wf
    (List.cons_ne_nil _ _) (List.cons_ne_nil _ _)

/-! ## Claim C4: wrong request variants -/

/-- Pass-2 runs `ds` good inputs and then receives a reply that is not the
demanded `SignInput`: the loop fails with `InvalidState` right there, after
having already delivered the staged signatures of the good inputs with its
hints. -/
theorem run_pass2Loop_badNext (env : Env) (request : BtcSignInitRequest)
    (sigf : BtcSignInputRequest → Bool → List Nat × List Nat)
    (akf : AntiKleptoSignatureRequest → List Nat)
    (hp2 : ∀ r b, env.sign_input_pass2 r b = Except.ok (sigf r b))
    (hak : ∀ r, env.sign_antiklepto r = Except.ok (akf r)) :
    ∀ (ds : List TxInputData) (i : Nat) (st : St) (req : Request)
      (rest : List Request) (n : Nat),
    st.host = (ds.map inputPass2Msgs).flatten ++ (req :: rest) →
    isSignInputReq req = false →
    ds.length + 1 ≤ n →
    pass2Loop env request n i st =
      (Except.error Error.invalidState,
       { host := rest,
         resp := { next := defaultNext, wrap := false },
         trace := st.trace ++ (pass2Sim sigf akf request ds i st.resp).1 ++
           [sentHint (pass2Sim sigf akf request ds i st.resp).2 NextType.input
             (i + ds.length) none] })
  | [], i, st, req, rest, n, hh, hbad, hn => by
      obtain ⟨m, rfl⟩ : ∃ m, n = m + 1 := ⟨n - 1, by omega⟩
      have hh1 : st.host = req :: rest := by simpa using hh
      have e1 := run_get_request_ok NextType.input i none st req rest hh1
      simp only [pass2Loop, run_bind, get_tx_input, e1, modifyS, run_pure]
      cases req <;>
        simp_all [isSignInputReq, throwE, pass2Sim, sentHint, accessorOutState]
  | d :: ds, i, st, req, rest, n, hh, hbad, hn => by
      obtain ⟨m, rfl⟩ : ∃ m, n = m + 1 := ⟨n - 1, by omega⟩
      rcases hnc : d.input.host_nonce_commitment with _ | nc
      · have hh1 : st.host = Request.btcSignInput d.input ::
            ((ds.map inputPass2Msgs).flatten ++ (req :: rest)) := by
          simpa [inputPass2Msgs, hnc, List.append_assoc] using hh
        have e1 := run_get_tx_input_ok i st d.input _ hh1
        simp only [pass2Loop, run_bind, e1, emit, liftE, hp2, hnc,
          Option.isSome_none, Bool.false_eq_true, if_false, modifyS]
        rw [run_pass2Loop_badNext env request sigf akf hp2 hak ds (i + 1) _ req
          rest m (by simp [accessorOutState])
          hbad (by simp only [List.length_cons] at hn; omega)]
        rw [pass2Sim_cons_plain sigf akf request d ds i st.resp
          (by simp [hnc])]
        simp [accessorOutState, sentHint, sigStaged, List.append_assoc,
          Nat.add_assoc, Nat.add_comm, Nat.add_left_comm]
      · have hh1 : st.host = Request.btcSignInput d.input ::
            (Request.btc (some (BtcRequest.antikleptoSignature
              { host_nonce := d.hostNonce })) ::
              ((ds.map inputPass2Msgs).flatten ++ (req :: rest))) := by
          simpa [inputPass2Msgs, hnc, List.append_assoc] using hh
        have e1 := run_get_tx_input_ok i st d.input _ hh1
        simp only [pass2Loop, run_bind, e1, emit, liftE, hp2, hnc,
          Option.isSome_some, if_true, modifyS]
        rw [run_get_antiklepto_host_nonce_ok i _ { host_nonce := d.hostNonce }
          ((ds.map inputPass2Msgs).flatten ++ (req :: rest))
          (by simp [accessorOutState])]
        simp only [run_bind, liftE, hak, modifyS]
        rw [run_pass2Loop_badNext env request sigf akf hp2 hak ds (i + 1) _ req
          rest m (by simp [accessorOutState])
          hbad (by simp only [List.length_cons] at hn; omega)]
        rw [pass2Sim_cons_ak sigf akf request d ds i st.resp (by simp [hnc])]
        simp [accessorOutState, sentHint, akStaged, stagedNext, List.append_assoc,
          Nat.add_assoc, Nat.add_comm, Nat.add_left_comm]

/-- Fixture: a 2-input, 1-output transaction whose host stream behaves
through pass 1, the outputs and pass-2 input 0, then answers the pass-2
fetch of input 1 with a wrong variant. -/
def cTx : TxData :=
  { coin := 0, version := 1, locktime := 0, inputs := [wTxIn, wTxIn],
    outputs := [wOutput] }

/-- The truncated host stream for the wrong-variant scenario. -/
def cBadHost : List Request :=
  (cTx.inputs.map inputPass1Msgs).flatten ++ outputMsgs cTx.outputs ++
  (([wTxIn] : List TxInputData).map inputPass2Msgs).flatten ++ [Request.other]

/-- Session state for the wrong-variant scenario. -/
def cBadSt : St := { host := cBadHost, resp := initResponse, trace := [] }

/-- **C4, counterexample**: a protocol step answered with the wrong variant
makes the session fail with `InvalidState` — but a signature (input 0's) HAS
been produced and delivered to the host earlier in the very same session, on
the round-trip fetching input 1, refuting "no signature is produced for that
session". -/
theorem C4_counterexample :
    (process (benignEnv wSigF wAkF) cTx.initRequest cBadSt).1 =
      Except.error Error.invalidState ∧
    Event.sent (Response.btcSignNext
      { type := NextType.input, index := 1, has_signature := true,
        signature := [0xAA], prev_index := 0,
        anti_klepto_signer_commitment := none }) ∈
      (process (benignEnv wSigF wAkF) cTx.initRequest cBadSt).2.trace := by
  have hkey : (benignEnv wSigF wAkF).keystore_locked = false := rfl
  have hsi : ∀ q, (benignEnv wSigF wAkF).sign_init q = Except.ok () := fun _ => rfl
  have hrun : _process (benignEnv wSigF wAkF) cTx.initRequest cBadSt =
      (Except.error Error.invalidState,
       { host := [],
         resp := { next := defaultNext, wrap := false },
         trace := cBadSt.trace ++ pass1Events false 0 cTx.inputs ++
           outputsEvents cTx.initRequest true 0 cTx.outputs ++
           [Event.toast "Transaction\nconfirmed" true] ++
           (pass2Sim wSigF wAkF cTx.initRequest [wTxIn] 0
             { next := defaultNext, wrap := false }).1 ++
           [sentHint (pass2Sim wSigF wAkF cTx.initRequest [wTxIn] 0
             { next := defaultNext, wrap := false }).2 NextType.input 1 none] }) := by
    simp only [_process, run_bind, liftE, modifyS, emit, getS, run_pure, hkey, hsi,
      Bool.false_eq_true, if_false]
    rw [show cTx.initRequest.num_inputs = cTx.inputs.length from rfl]
    rw [run_pass1Loop (benignEnv wSigF wAkF) cTx.initRequest (fun _ _ => rfl)
      cTx.inputs 0 _
      (outputMsgs cTx.outputs ++
        ((([wTxIn] : List TxInputData).map inputPass2Msgs).flatten ++
          [Request.other]))
      (by simp [cBadSt, cBadHost, List.append_assoc]) (by simp [initResponse])
      (fun d hd => by
        have h : d = wTxIn := by simpa [cTx] using hd
        subst h
        exact ⟨rfl, rfl, by decide, by decide, by decide, rfl⟩)]
    simp only [show (cTx.inputs.isEmpty) = false from rfl, Bool.false_eq_true,
      if_false]
    rw [show cTx.initRequest.num_outputs = cTx.outputs.length from rfl]
    rw [run_outputsLoop (benignEnv wSigF wAkF) cTx.initRequest (fun _ _ => rfl)
      cTx.outputs 0 _
      ((([wTxIn] : List TxInputData).map inputPass2Msgs).flatten ++
        [Request.other])
      (by simp) (by simp)]
    simp only [show (cTx.outputs.isEmpty) = false from rfl, Bool.false_eq_true,
      if_false]
    rw [run_pass2Loop_badNext (benignEnv wSigF wAkF) cTx.initRequest wSigF wAkF
      (fun _ _ => rfl) (fun _ => rfl) [wTxIn] 0 _ Request.other []
      cTx.inputs.length (by simp) rfl (by decide)]
    simp [initResponse, List.append_assoc]
  rw [show process (benignEnv wSigF wAkF) cTx.initRequest cBadSt =
      (Except.error Error.invalidState,
       { (_process (benignEnv wSigF wAkF) cTx.initRequest cBadSt).2 with
         trace := (_process (benignEnv wSigF wAkF) cTx.initRequest
           cBadSt).2.trace ++ [Event.signReset] }) from by
    simp [process, hrun]]
  refine ⟨rfl, ?_⟩
  rw [hrun]
  simp only [pass2Sim, show wTxIn.input.host_nonce_commitment.isSome = false
    from rfl, Bool.false_eq_true, if_false]
  simp [sentHint, sigStaged, stagedNext, NextResponse.to_protobuf, wSigF,
    defaultNext, NextType.input]

/-- **C4, amended**: if the host's reply is not the exact request variant the
typed accessor for the step demands, the accessor — and with it the session —
fails with `InvalidState`, and nothing further is sent after the offending
reply (the hint sent on that very round-trip may however already have carried
a signature staged by earlier steps, which the counterexample shows is
delivered). -/
theorem C4_wrong_variant (request : BtcSignInitRequest)
    (sigf : BtcSignInputRequest → Bool → List Nat × List Nat)
    (akf : AntiKleptoSignatureRequest → List Nat) :
    (∀ (index : Nat) (st : St) (req : Request) (rest : List Request),
      st.host = req :: rest → isSignInputReq req = false →
      (get_tx_input index st).1 = Except.error Error.invalidState ∧
      (get_tx_input index st).2.trace =
        st.trace ++ [sentHint st.resp NextType.input index none]) ∧
    (∀ (index : Nat) (st : St) (req : Request) (rest : List Request),
      st.host = req :: rest → isSignOutputReq req = false →
      (get_tx_output index st).1 = Except.error Error.invalidState ∧
      (get_tx_output index st).2.trace =
        st.trace ++ [sentHint st.resp NextType.output index none]) ∧
    (∀ (index : Nat) (st : St) (req : Request) (rest : List Request),
      st.host = req :: rest → isPrevtxInitReq req = false →
      (get_prevtx_init index st).1 = Except.error Error.invalidState ∧
      (get_prevtx_init index st).2.trace =
        st.trace ++ [sentHint st.resp NextType.prevtxInit index none]) ∧
    (∀ (i k : Nat) (st : St) (req : Request) (rest : List Request),
      st.host = req :: rest → isPrevtxInputReq req = false →
      (get_prevtx_input i k st).1 = Except.error Error.invalidState ∧
      (get_prevtx_input i k st).2.trace =
        st.trace ++ [sentHint st.resp NextType.prevtxInput i (some k)]) ∧
    (∀ (i k : Nat) (st : St) (req : Request) (rest : List Request),
      st.host = req :: rest → isPrevtxOutputReq req = false →
      (get_prevtx_output i k st).1 = Except.error Error.invalidState ∧
      (get_prevtx_output i k st).2.trace =
        st.trace ++ [sentHint st.resp NextType.prevtxOutput i (some k)]) ∧
    (∀ (index : Nat) (st : St) (req : Request) (rest : List Request),
      st.host = req :: rest → isAntikleptoReq req = false →
      (get_antiklepto_host_nonce index st).1 = Except.error Error.invalidState ∧
      (get_antiklepto_host_nonce index st).2.trace =
        st.trace ++ [sentHint st.resp NextType.hostNonce index none]) ∧
    (∀ (ds : List TxInputData) (i : Nat) (st : St) (req : Request)
      (rest : List Request) (n : Nat) (env : Env),
      (∀ r b, env.sign_input_pass2 r b = Except.ok (sigf r b)) →
      (∀ r, env.sign_antiklepto r = Except.ok (akf r)) →
      st.host = (ds.map inputPass2Msgs).flatten ++ (req :: rest) →
      isSignInputReq req = false →
      ds.length + 1 ≤ n →
      (pass2Loop env request n i st).1 = Except.error Error.invalidState) := by
  refine ⟨get_tx_input_wrong_variant, get_tx_output_wrong_variant,
    get_prevtx_init_wrong_variant, get_prevtx_input_wrong_variant,
    get_prevtx_output_wrong_variant, get_antiklepto_wrong_variant,
    ?_⟩
  intro ds i st req rest n env hp2 hak hh hbad hn
  rw [run_pass2Loop_badNext env request sigf akf hp2 hak ds i st req rest n hh
    hbad hn]

/-- Witness fixture: a state offering a wrong variant. -/
def wStOther : St := { host := [Request.other], resp := initResponse, trace := [] }

theorem C4_witness :
    (get_tx_input 0 wStOther).1 = Except.error Error.invalidState ∧
    (get_tx_input 0 wStOther).2.trace =
      wStOther.trace ++ [sentHint wStOther.resp NextType.input 0 none] :=
  (C4_wrong_variant wTx.initRequest wSigF wAkF).1 0 wStOther Request.other [] rfl rfl

/-! ## Trace extension: every computation only appends events -/

/-- `m` only appends events to the trace, all satisfying `P`, whatever the
state, the host's answers and the outcome. -/
def AppendSpec {α : Type} (m : M α) (P : Event → Prop) : Prop :=
  ∀ st : St, ∃ Δ : List Event,
    (m st).2.trace = st.trace ++ Δ ∧ ∀ e ∈ Δ, P e

theorem appendSpec_pure {α : Type} (a : α) (P : Event → Prop) :
    AppendSpec (pure a : M α) P :=
  fun st => ⟨[], by simp [run_pure], by simp⟩

theorem appendSpec_throwE {α : Type} (e : Error) (P : Event → Prop) :
    AppendSpec (throwE e : M α) P :=
  fun st => ⟨[], by simp [throwE], by simp⟩

theorem appendSpec_getS (P : Event → Prop) : AppendSpec getS P :=
  fun st => ⟨[], by simp [getS], by simp⟩

theorem appendSpec_liftE {α : Type} (r : Except Error α) (P : Event → Prop) :
    AppendSpec (liftE r) P :=
  fun st => ⟨[], by simp [liftE], by simp⟩

theorem appendSpec_modifyS (f : St → St) (hf : ∀ st, (f st).trace = st.trace)
    (P : Event → Prop) : AppendSpec (modifyS f) P :=
  fun st => ⟨[], by simp [modifyS, hf], by simp⟩

theorem appendSpec_emit (e : Event) (P : Event → Prop) (he : P e) :
    AppendSpec (emit e) P :=
  fun st => ⟨[e], rfl, by simpa⟩

theorem appendSpec_next_request (r : Response) (P : Event → Prop)
    (hP : P (Event.sent r)) : AppendSpec (next_request r) P := by
  intro st
  refine ⟨[Event.sent r], ?_, by simpa⟩
  rcases hh : st.host with _ | ⟨q, rest⟩ <;> simp [next_request, hh]

theorem appendSpec_bind {α β : Type} {m : M α} {f : α → M β} {P : Event → Prop}
    (hm : AppendSpec m P) (hf : ∀ a, AppendSpec (f a) P) :
    AppendSpec (m >>= f) P := by
  intro st
  obtain ⟨Δ1, h1, h1P⟩ := hm st
  rcases hres : m st with ⟨res, st1⟩
  rw [hres] at h1
  cases res with
  | error e =>
      refine ⟨Δ1, ?_, h1P⟩
      rw [run_bind, hres]
      exact h1
  | ok a =>
      obtain ⟨Δ2, h2, h2P⟩ := hf a st1
      refine ⟨Δ1 ++ Δ2, ?_, ?_⟩
      · rw [run_bind, hres, h2, h1, List.append_assoc]
      · intro e he
        rcases List.mem_append.mp he with h | h
        · exact h1P e h
        · exact h2P e h

theorem appendSpec_get_request (typ index : Nat) (pidx : Option Nat)
    (P : Event → Prop) (hsent : ∀ r, P (Event.sent r)) :
    AppendSpec (get_request typ index pidx) P := by
  unfold get_request
  refine appendSpec_bind (appendSpec_getS P) fun st0 => ?_
  refine appendSpec_bind (appendSpec_modifyS _ (fun _ => rfl) P) fun _ => ?_
  refine appendSpec_bind (appendSpec_next_request _ P (hsent _)) fun req => ?_
  refine appendSpec_bind (appendSpec_modifyS _ (fun _ => rfl) P) fun _ => ?_
  exact appendSpec_pure req P

theorem appendSpec_get_tx_input (index : Nat) (P : Event → Prop)
    (hsent : ∀ r, P (Event.sent r)) : AppendSpec (get_tx_input index) P := by
  unfold get_tx_input
  refine appendSpec_bind (appendSpec_get_request _ _ _ P hsent) fun req => ?_
  refine appendSpec_bind (appendSpec_modifyS _ (fun _ => rfl) P) fun _ => ?_
  cases req <;> first
    | exact appendSpec_pure _ P
    | exact appendSpec_throwE _ P

theorem appendSpec_get_tx_output (index : Nat) (P : Event → Prop)
    (hsent : ∀ r, P (Event.sent r)) : AppendSpec (get_tx_output index) P := by
  unfold get_tx_output
  refine appendSpec_bind (appendSpec_get_request _ _ _ P hsent) fun req => ?_
  refine appendSpec_bind (appendSpec_modifyS _ (fun _ => rfl) P) fun _ => ?_
  cases req <;> first
    | exact appendSpec_pure _ P
    | exact appendSpec_throwE _ P

theorem appendSpec_get_prevtx_init (index : Nat) (P : Event → Prop)
    (hsent : ∀ r, P (Event.sent r)) : AppendSpec (get_prevtx_init index) P := by
  unfold get_prevtx_init
  refine appendSpec_bind (appendSpec_modifyS _ (fun _ => rfl) P) fun _ => ?_
  refine appendSpec_bind (appendSpec_get_request _ _ _ P hsent) fun req => ?_
  refine appendSpec_bind (appendSpec_modifyS _ (fun _ => rfl) P) fun _ => ?_
  rcases req with r1 | r1 | q | _
  · exact appendSpec_throwE _ P
  · exact appendSpec_throwE _ P
  · rcases q with _ | q2
    · exact appendSpec_throwE _ P
    · rcases q2 with r2 | r2 | r2 | r2 | _ <;> first
        | exact appendSpec_pure _ P
        | exact appendSpec_throwE _ P
  · exact appendSpec_throwE _ P

theorem appendSpec_get_prevtx_input (i k : Nat) (P : Event → Prop)
    (hsent : ∀ r, P (Event.sent r)) : AppendSpec (get_prevtx_input i k) P := by
  unfold get_prevtx_input
  refine appendSpec_bind (appendSpec_get_request _ _ _ P hsent) fun req => ?_
  refine appendSpec_bind (appendSpec_modifyS _ (fun _ => rfl) P) fun _ => ?_
  rcases req with r1 | r1 | q | _
  · exact appendSpec_throwE _ P
  · exact appendSpec_throwE _ P
  · rcases q with _ | q2
    · exact appendSpec_throwE _ P
    · rcases q2 with r2 | r2 | r2 | r2 | _ <;> first
        | exact appendSpec_pure _ P
        | exact appendSpec_throwE _ P
  · exact appendSpec_throwE _ P

theorem appendSpec_get_prevtx_output (i k : Nat) (P : Event → Prop)
    (hsent : ∀ r, P (Event.sent r)) : AppendSpec (get_prevtx_output i k) P := by
  unfold get_prevtx_output
  refine appendSpec_bind (appendSpec_get_request _ _ _ P hsent) fun req => ?_
  refine appendSpec_bind (appendSpec_modifyS _ (fun _ => rfl) P) fun _ => ?_
  rcases req with r1 | r1 | q | _
  · exact appendSpec_throwE _ P
  · exact appendSpec_throwE _ P
  · rcases q with _ | q2
    · exact appendSpec_throwE _ P
    · rcases q2 with r2 | r2 | r2 | r2 | _ <;> first
        | exact appendSpec_pure _ P
        | exact appendSpec_throwE _ P
  · exact appendSpec_throwE _ P

theorem appendSpec_get_antiklepto (index : Nat) (P : Event → Prop)
    (hsent : ∀ r, P (Event.sent r)) :
    AppendSpec (get_antiklepto_host_nonce index) P := by
  unfold get_antiklepto_host_nonce
  refine appendSpec_bind (appendSpec_get_request _ _ _ P hsent) fun req => ?_
  refine appendSpec_bind (appendSpec_modifyS _ (fun _ => rfl) P) fun _ => ?_
  rcases req with r1 | r1 | q | _
  · exact appendSpec_throwE _ P
  · exact appendSpec_throwE _ P
  · rcases q with _ | q2
    · exact appendSpec_throwE _ P
    · rcases q2 with r2 | r2 | r2 | r2 | _ <;> first
        | exact appendSpec_pure _ P
        | exact appendSpec_throwE _ P
  · exact appendSpec_throwE _ P

theorem appendSpec_prevtxInputsLoop (i : Nat) (P : Event → Prop)
    (hsent : ∀ r, P (Event.sent r)) :
    ∀ (n k : Nat) (acc : List Nat), AppendSpec (prevtxInputsLoop i n k acc) P
  | 0, _, _ => appendSpec_pure _ P
  | n + 1, k, acc => by
      unfold prevtxInputsLoop
      refine appendSpec_bind (appendSpec_get_prevtx_input i k P hsent) fun pin => ?_
      exact appendSpec_prevtxInputsLoop i P hsent n (k + 1) _

theorem appendSpec_prevtxOutputsLoop (i : Nat) (input : BtcSignInputRequest)
    (P : Event → Prop) (hsent : ∀ r, P (Event.sent r)) :
    ∀ (n k : Nat) (acc : List Nat),
    AppendSpec (prevtxOutputsLoop i input n k acc) P
  | 0, _, _ => appendSpec_pure _ P
  | n + 1, k, acc => by
      unfold prevtxOutputsLoop
      refine appendSpec_bind (appendSpec_get_prevtx_output i k P hsent) fun pout => ?_
      by_cases hc : k = input.prev_out_index ∧ input.prev_out_value ≠ pout.value
      · simp only [if_pos hc]
        exact appendSpec_throwE _ P
      · simp only [if_neg hc]
        exact appendSpec_prevtxOutputsLoop i input P hsent n (k + 1) _

theorem appendSpec_handle_prevtx (i : Nat) (input : BtcSignInputRequest)
    (P : Event → Prop) (hsent : ∀ r, P (Event.sent r))
    (hver : P (Event.prevtxVerified i)) :
    AppendSpec (handle_prevtx i input) P := by
  unfold handle_prevtx
  refine appendSpec_bind (appendSpec_get_prevtx_init i P hsent) fun init => ?_
  by_cases hc : init.num_inputs < 1 ∨ init.num_outputs < 1
  · simp only [if_pos hc]
    exact appendSpec_throwE _ P
  · simp only [if_neg hc]
    refine appendSpec_bind (appendSpec_prevtxInputsLoop i P hsent _ _ _)
      fun acc1 => ?_
    refine appendSpec_bind (appendSpec_prevtxOutputsLoop i input P hsent _ _ _)
      fun acc2 => ?_
    by_cases hc2 : dsha256 (acc2 ++ le32 init.locktime) ≠ input.prev_out_hash
    · simp only [if_pos hc2]
      exact appendSpec_throwE _ P
    · simp only [if_neg hc2]
      exact appendSpec_emit _ P hver

theorem appendSpec_pass1Loop (env : Env) (request : BtcSignInitRequest)
    (P : Event → Prop) (hsent : ∀ r, P (Event.sent r))
    (hver : ∀ i, P (Event.prevtxVerified i)) :
    ∀ (n i : Nat), AppendSpec (pass1Loop env request n i) P
  | 0, _ => appendSpec_pure _ P
  | n + 1, i => by
      unfold pass1Loop
      refine appendSpec_bind (appendSpec_get_tx_input i P hsent) fun inp => ?_
      refine appendSpec_bind (appendSpec_liftE _ P) fun _ => ?_
      refine appendSpec_bind (appendSpec_handle_prevtx i inp P hsent (hver i))
        fun _ => ?_
      exact appendSpec_pass1Loop env request P hsent hver n (i + 1)

theorem appendSpec_outputsLoop (env : Env) (request : BtcSignInitRequest)
    (P : Event → Prop) (hsent : ∀ r, P (Event.sent r))
    (hconf : ∀ j b, P (Event.outputConfirmed j b)) :
    ∀ (n j : Nat), AppendSpec (outputsLoop env request n j) P
  | 0, _ => appendSpec_pure _ P
  | n + 1, j => by
      unfold outputsLoop
      refine appendSpec_bind (appendSpec_get_tx_output j P hsent) fun o => ?_
      refine appendSpec_bind (appendSpec_liftE _ P) fun _ => ?_
      refine appendSpec_bind (appendSpec_emit _ P (hconf _ _)) fun _ => ?_
      exact appendSpec_outputsLoop env request P hsent hconf n (j + 1)

theorem appendSpec_pass2Loop (env : Env) (request : BtcSignInitRequest)
    (P : Event → Prop) (hsent : ∀ r, P (Event.sent r))
    (hp2 : ∀ i, P (Event.pass2Called i)) :
    ∀ (n i : Nat), AppendSpec (pass2Loop env request n i) P
  | 0, _ => appendSpec_pure _ P
  | n + 1, i => by
      unfold pass2Loop
      refine appendSpec_bind (appendSpec_get_tx_input i P hsent) fun inp => ?_
      refine appendSpec_bind (appendSpec_emit _ P (hp2 i)) fun _ => ?_
      refine appendSpec_bind (appendSpec_liftE _ P) fun sigCom => ?_
      by_cases hc : inp.host_nonce_commitment.isSome
      · simp only [hc, if_true]
        refine appendSpec_bind (appendSpec_modifyS _ (fun _ => rfl) P) fun _ => ?_
        refine appendSpec_bind (appendSpec_get_antiklepto i P hsent) fun nr => ?_
        refine appendSpec_bind (appendSpec_liftE _ P) fun sig2 => ?_
        refine appendSpec_bind (appendSpec_modifyS _ (fun _ => rfl) P) fun _ => ?_
        exact appendSpec_pass2Loop env request P hsent hp2 n (i + 1)
      · simp only [hc, Bool.false_eq_true, if_false]
        refine appendSpec_bind (appendSpec_modifyS _ (fun _ => rfl) P) fun _ => ?_
        exact appendSpec_pass2Loop env request P hsent hp2 n (i + 1)

theorem appendSpec_process_inner (env : Env) (request : BtcSignInitRequest)
    (P : Event → Prop) (hsent : ∀ r, P (Event.sent r))
    (hver : ∀ i, P (Event.prevtxVerified i))
    (hconf : ∀ j b, P (Event.outputConfirmed j b))
    (hp2 : ∀ i, P (Event.pass2Called i))
    (htoast : P (Event.toast "Transaction\nconfirmed" true)) :
    AppendSpec (_process env request) P := by
  unfold _process
  by_cases hk : env.keystore_locked
  · simp only [hk, if_true]
    exact appendSpec_throwE _ P
  · simp only [hk, Bool.false_eq_true, if_false]
    refine appendSpec_bind (appendSpec_liftE _ P) fun _ => ?_
    refine appendSpec_bind (appendSpec_modifyS _ (fun _ => rfl) P) fun _ => ?_
    refine appendSpec_bind (appendSpec_pass1Loop env request P hsent hver _ _)
      fun _ => ?_
    refine appendSpec_bind (appendSpec_outputsLoop env request P hsent hconf _ _)
      fun _ => ?_
    refine appendSpec_bind (appendSpec_emit _ P htoast) fun _ => ?_
    refine appendSpec_bind (appendSpec_pass2Loop env request P hsent hp2 _ _)
      fun _ => ?_
    refine appendSpec_bind (appendSpec_modifyS _ (fun _ => rfl) P) fun _ => ?_
    refine appendSpec_bind (appendSpec_getS P) fun stx => ?_
    exact appendSpec_pure _ P

/-! ## Completeness of the phase markers on success -/

theorem handle_prevtx_ok_mem (i : Nat) (input : BtcSignInputRequest) (st : St)
    (hok : (handle_prevtx i input st).1 = Except.ok ()) :
    Event.prevtxVerified i ∈ (handle_prevtx i input st).2.trace := by
  rcases h1 : get_prevtx_init i st with ⟨res1, st1⟩
  cases res1 with
  | error e =>
      simp only [handle_prevtx] at hok
      rw [run_bind_error h1] at hok
      simp at hok
  | ok init =>
      simp only [handle_prevtx] at hok ⊢
      rw [run_bind_ok h1] at hok ⊢
      by_cases hg : init.num_inputs < 1 ∨ init.num_outputs < 1
      · rw [if_pos hg] at hok
        simp [throwE] at hok
      · rw [if_neg hg] at hok ⊢
        rcases h2 : prevtxInputsLoop i init.num_inputs 0
          (le32 init.version ++ serialize_varint init.num_inputs) st1 with ⟨res2, st2⟩
        cases res2 with
        | error e =>
            rw [run_bind_error h2] at hok
            simp at hok
        | ok acc1 =>
            rw [run_bind_ok h2] at hok ⊢
            rcases h3 : prevtxOutputsLoop i input init.num_outputs 0
              (acc1 ++ serialize_varint init.num_outputs) st2 with ⟨res3, st3⟩
            cases res3 with
            | error e =>
                rw [run_bind_error h3] at hok
                simp at hok
            | ok acc2 =>
                rw [run_bind_ok h3] at hok ⊢
                by_cases hh : dsha256 (acc2 ++ le32 init.locktime) ≠ input.prev_out_hash
                · rw [if_pos hh] at hok
                  simp [throwE] at hok
                · rw [if_neg hh]
                  simp [emit]

theorem pass1Loop_ok_mem (env : Env) (request : BtcSignInitRequest) :
    ∀ (n i : Nat) (st : St),
    (pass1Loop env request n i st).1 = Except.ok () →
    ∀ j, i ≤ j → j < i + n →
    Event.prevtxVerified j ∈ (pass1Loop env request n i st).2.trace
  | 0, i, st, hok, j, hj1, hj2 => absurd hj2 (by omega)
  | n + 1, i, st, hok, j, hj1, hj2 => by
      rcases h1 : get_tx_input i st with ⟨res1, st1⟩
      cases res1 with
      | error e =>
          simp only [pass1Loop] at hok
          rw [run_bind_error h1] at hok
          simp at hok
      | ok inp =>
          simp only [pass1Loop] at hok ⊢
          rw [run_bind_ok h1] at hok ⊢
          cases h2 : env.sign_input_pass1 inp (i == request.num_inputs - 1) with
          | error e =>
              rw [run_bind_error (show liftE (env.sign_input_pass1 inp
                (i == request.num_inputs - 1)) st1 = (Except.error e, st1) by
                  simp only [liftE, h2])] at hok
              simp at hok
          | ok u =>
              rw [run_bind_ok (show liftE (env.sign_input_pass1 inp
                (i == request.num_inputs - 1)) st1 = (Except.ok u, st1) by
                  simp only [liftE, h2])] at hok
              rw [run_bind_ok (show liftE (Except.ok u) st1 = (Except.ok u, st1)
                from rfl)]
              rcases h3 : handle_prevtx i inp st1 with ⟨res3, st3⟩
              cases res3 with
              | error e =>
                  rw [run_bind_error h3] at hok
                  simp at hok
              | ok u2 =>
                  rw [run_bind_ok h3] at hok ⊢
                  by_cases hj : j = i
                  · subst hj
                    have hmem := handle_prevtx_ok_mem j inp st1 (by rw [h3])
                    rw [h3] at hmem
                    obtain ⟨Δ, hΔ, _⟩ := appendSpec_pass1Loop env request
                      (fun _ => True) (fun _ => trivial) (fun _ => trivial) n (j + 1)
                      st3
                    rw [hΔ]
                    exact List.mem_append_left _ hmem
                  · exact pass1Loop_ok_mem env request n (i + 1) st3 hok j
                      (by omega) (by omega)

theorem outputsLoop_ok_mem (env : Env) (request : BtcSignInitRequest) :
    ∀ (n j : Nat) (st : St),
    (outputsLoop env request n j st).1 = Except.ok () →
    ∀ m, j ≤ m → m < j + n →
    Event.outputConfirmed m (m == request.num_outputs - 1) ∈
      (outputsLoop env request n j st).2.trace
  | 0, j, st, hok, m, hm1, hm2 => absurd hm2 (by omega)
  | n + 1, j, st, hok, m, hm1, hm2 => by
      rcases h1 : get_tx_output j st with ⟨res1, st1⟩
      cases res1 with
      | error e =>
          simp only [outputsLoop] at hok
          rw [run_bind_error h1] at hok
          simp at hok
      | ok o =>
          simp only [outputsLoop] at hok ⊢
          rw [run_bind_ok h1] at hok ⊢
          cases h2 : env.sign_output o (j == request.num_outputs - 1) with
          | error e =>
              rw [run_bind_error (show liftE (env.sign_output o
                (j == request.num_outputs - 1)) st1 = (Except.error e, st1) by
                  simp only [liftE, h2])] at hok
              simp at hok
          | ok u =>
              rw [run_bind_ok (show liftE (env.sign_output o
                (j == request.num_outputs - 1)) st1 = (Except.ok u, st1) by
                  simp only [liftE, h2])] at hok
              rw [run_bind_ok (show liftE (Except.ok u) st1 = (Except.ok u, st1)
                from rfl)]
              rw [run_bind_ok (show emit (Event.outputConfirmed j
                (j == request.num_outputs - 1)) st1 = (Except.ok (),
                { st1 with trace := st1.trace ++ [Event.outputConfirmed j
                  (j == request.num_outputs - 1)] }) from rfl)] at hok ⊢
              by_cases hm : m = j
              · subst hm
                obtain ⟨Δ, hΔ, _⟩ := appendSpec_outputsLoop env request
                  (fun _ => True) (fun _ => trivial) (fun _ _ => trivial) n (m + 1)
                  { st1 with trace := st1.trace ++
                    [Event.outputConfirmed m (m == request.num_outputs - 1)] }
                rw [hΔ]
                refine List.mem_append_left _ ?_
                simp
              · exact outputsLoop_ok_mem env request n (j + 1) _ hok m (by omega)
                  (by omega)

/-! ## Claim C5: cleanup on every exit path -/

/-- The events `process` appends after `_process` finishes: `sign_reset`,
plus the cancel toast on user abort; never a pass-2 marker. -/
theorem process_trace_shape (env : Env) (request : BtcSignInitRequest) (st0 : St) :
    ∃ X : List Event,
      (process env request st0).2.trace = (_process env request st0).2.trace ++ X ∧
      (∀ i, Event.pass2Called i ∉ X) ∧
      Event.signReset ∈ X := by
  rcases h : _process env request st0 with ⟨res, st1⟩
  cases res with
  | ok a => exact ⟨[Event.signReset], by simp [process, h], by simp, by simp⟩
  | error e =>
      cases e with
      | userAbort =>
          exact ⟨[Event.signReset, Event.toast "Transaction\ncanceled" false],
            by simp [process, h], by simp, by simp⟩
      | invalidInput => exact ⟨[Event.signReset], by simp [process, h], by simp, by simp⟩
      | invalidState => exact ⟨[Event.signReset], by simp [process, h], by simp, by simp⟩
      | generic => exact ⟨[Event.signReset], by simp [process, h], by simp, by simp⟩

/-- **C5**: on every terminal outcome — success or any error — `sign_reset`
runs exactly once, and the "Transaction canceled" toast is rendered iff the
outcome is `UserAbort`. -/
theorem C5_cleanup (env : Env) (request : BtcSignInitRequest) (st0 : St)
    (htr : st0.trace = []) :
    (process env request st0).2.trace.count Event.signReset = 1 ∧
    (Event.toast "Transaction\ncanceled" false ∈ (process env request st0).2.trace ↔
      (process env request st0).1 = Except.error Error.userAbort) := by
  obtain ⟨Δ, hΔ, hP⟩ := appendSpec_process_inner env request
    (fun e => e ≠ Event.signReset ∧ ∀ b, e ≠ Event.toast "Transaction\ncanceled" b)
    (fun r => ⟨by simp, fun b => by simp⟩)
    (fun i => ⟨by simp, fun b => by simp⟩)
    (fun j b => ⟨by simp, fun b2 => by simp⟩)
    (fun i => ⟨by simp, fun b => by simp⟩)
    ⟨by simp, fun b => by simp⟩
    st0
  rcases h : _process env request st0 with ⟨res, st1⟩
  rw [h] at hΔ
  have hΔt : st1.trace = Δ := by
    have h2 : st1.trace = st0.trace ++ Δ := hΔ
    rw [htr] at h2
    simpa using h2
  have hnt : Event.toast "Transaction\ncanceled" false ∉ st1.trace := by
    rw [hΔt]
    exact fun hmem => (hP _ hmem).2 false rfl
  have hcount : st1.trace.count Event.signReset = 0 :=
    List.count_eq_zero.mpr (by
      rw [hΔt]
      exact fun hmem => (hP _ hmem).1 rfl)
  cases res with
  | ok a =>
      constructor
      · simp [process, h, List.count_append, hcount]
      · simp [process, h]
        exact hnt
  | error e =>
      cases e with
      | userAbort =>
          constructor
          · simp [process, h, List.count_append, hcount]
          · simp [process, h]
      | invalidInput =>
          constructor
          · simp [process, h, List.count_append, hcount]
          · simp [process, h]
            exact hnt
      | invalidState =>
          constructor
          · simp [process, h, List.count_append, hcount]
          · simp [process, h]
            exact hnt
      | generic =>
          constructor
          · simp [process, h, List.count_append, hcount]
          · simp [process, h]
            exact hnt

/-! ## Claim C3: phase ordering -/

/-- **C3**: if pass-2 signing is ever invoked, the whole trace splits into a
prefix holding a successful prevtx verification for every input and the
confirmation of the final output, but no pass-2 call — pass-2 signing never
begins before every input's prevtx is verified and the last output is
confirmed. -/
theorem C3_phase_order (env : Env) (request : BtcSignInitRequest) (st0 : St)
    (htr : st0.trace = []) (hout : 1 ≤ request.num_outputs)
    (hex : ∃ i, Event.pass2Called i ∈ (process env request st0).2.trace) :
    ∃ tr1 tr2, (process env request st0).2.trace = tr1 ++ tr2 ∧
      (∀ j, j < request.num_inputs → Event.prevtxVerified j ∈ tr1) ∧
      Event.outputConfirmed (request.num_outputs - 1) true ∈ tr1 ∧
      (∀ i, Event.pass2Called i ∉ tr1) := by
  obtain ⟨X, hX, hXnp, _⟩ := process_trace_shape env request st0
  obtain ⟨i0, hi0⟩ := hex
  by_cases hk : env.keystore_locked
  · exfalso
    have hp : _process env request st0 = (Except.error Error.invalidState, st0) := by
      simp only [_process, hk, if_true, throwE]
    rw [hp] at hX
    rw [hX, htr] at hi0
    simp at hi0
    exact hXnp i0 hi0
  · cases hsi : env.sign_init request with
    | error e =>
        exfalso
        have hp : _process env request st0 = (Except.error e, st0) := by
          simp only [_process, hk, Bool.false_eq_true, if_false]
          rw [run_bind_error (show liftE (env.sign_init request) st0 =
            (Except.error e, st0) by simp only [liftE, hsi])]
        rw [hp] at hX
        rw [hX, htr] at hi0
        simp at hi0
        exact hXnp i0 hi0
    | ok u =>
        have h0 : _process env request st0 = ((do
            pass1Loop env request request.num_inputs 0
            outputsLoop env request request.num_outputs 0
            emit (Event.toast "Transaction\nconfirmed" true)
            pass2Loop env request request.num_inputs 0
            modifyS fun s => { s with resp := { s.resp with
              next := { s.resp.next with type := NextType.done } } }
            let st ← getS
            pure st.resp.to_protobuf) { st0 with resp := initResponse }) := by
          simp only [_process, hk, Bool.false_eq_true, if_false]
          rw [run_bind_ok (show liftE (env.sign_init request) st0 =
            (Except.ok u, st0) by simp only [liftE, hsi])]
          rw [run_bind_ok (show (modifyS fun s => { s with resp := initResponse })
            st0 = (Except.ok (), { st0 with resp := initResponse }) from rfl)]
        rcases hp1 : pass1Loop env request request.num_inputs 0
          { st0 with resp := initResponse } with ⟨res1, stA⟩
        obtain ⟨Δ1, hΔ1, hP1⟩ := appendSpec_pass1Loop env request
          (fun e => ∀ k, e ≠ Event.pass2Called k)
          (fun r k => by simp) (fun j k => by simp)
          request.num_inputs 0 { st0 with resp := initResponse }
        rw [hp1] at hΔ1
        have hAtr : stA.trace = Δ1 := by
          have h2 : stA.trace = st0.trace ++ Δ1 := hΔ1
          rw [htr] at h2
          simpa using h2
        cases res1 with
        | error e =>
            exfalso
            have hp : _process env request st0 = (Except.error e, stA) := by
              rw [h0, run_bind_error hp1]
            rw [hp] at hX
            rw [hX, hAtr] at hi0
            rcases List.mem_append.mp hi0 with hh | hh
            · exact hP1 _ hh i0 rfl
            · exact hXnp i0 hh
        | ok u1 =>
            have h1 : _process env request st0 = ((do
                outputsLoop env request request.num_outputs 0
                emit (Event.toast "Transaction\nconfirmed" true)
                pass2Loop env request request.num_inputs 0
                modifyS fun s => { s with resp := { s.resp with
                  next := { s.resp.next with type := NextType.done } } }
                let st ← getS
                pure st.resp.to_protobuf) stA) := by
              rw [h0, run_bind_ok hp1]
            rcases ho : outputsLoop env request request.num_outputs 0 stA
              with ⟨res2, stB⟩
            obtain ⟨Δ2, hΔ2, hP2⟩ := appendSpec_outputsLoop env request
              (fun e => ∀ k, e ≠ Event.pass2Called k)
              (fun r k => by simp) (fun j b k => by simp)
              request.num_outputs 0 stA
            rw [ho] at hΔ2
            have hBtr : stB.trace = Δ1 ++ Δ2 := by
              rw [hΔ2, hAtr]
            cases res2 with
            | error e =>
                exfalso
                have hp : _process env request st0 = (Except.error e, stB) := by
                  rw [h1, run_bind_error ho]
                rw [hp] at hX
                rw [hX, hBtr] at hi0
                rcases List.mem_append.mp hi0 with hh | hh
                · rcases List.mem_append.mp hh with hh2 | hh2
                  · exact hP1 _ hh2 i0 rfl
                  · exact hP2 _ hh2 i0 rfl
                · exact hXnp i0 hh
            | ok u2 =>
                have h2 : _process env request st0 = ((do
                    pass2Loop env request request.num_inputs 0
                    modifyS fun s => { s with resp := { s.resp with
                      next := { s.resp.next with type := NextType.done } } }
                    let st ← getS
                    pure st.resp.to_protobuf)
                  { stB with trace := stB.trace ++
                    [Event.toast "Transaction\nconfirmed" true] }) := by
                  rw [h1, run_bind_ok ho]
                  rw [run_bind_ok (show emit (Event.toast "Transaction\nconfirmed"
                    true) stB = (Except.ok (), { stB with trace := stB.trace ++
                    [Event.toast "Transaction\nconfirmed" true] }) from rfl)]
                rcases hp2 : pass2Loop env request request.num_inputs 0
                  { stB with trace := stB.trace ++
                    [Event.toast "Transaction\nconfirmed" true] } with ⟨res3, stD⟩
                have htrD : (_process env request st0).2.trace = stD.trace := by
                  cases res3 with
                  | error e => rw [h2, run_bind_error hp2]
                  | ok u3 =>
                      rw [h2, run_bind_ok hp2]
                      rfl
                obtain ⟨Δ3, hΔ3, _⟩ := appendSpec_pass2Loop env request
                  (fun _ => True) (fun _ => trivial) (fun _ => trivial)
                  request.num_inputs 0 { stB with trace := stB.trace ++
                    [Event.toast "Transaction\nconfirmed" true] }
                rw [hp2] at hΔ3
                have hDtr : stD.trace =
                    (stB.trace ++ [Event.toast "Transaction\nconfirmed" true]) ++ Δ3 :=
                  hΔ3
                refine ⟨stB.trace ++ [Event.toast "Transaction\nconfirmed" true],
                  Δ3 ++ X, ?_, ?_, ?_, ?_⟩
                · rw [hX, htrD, hDtr, List.append_assoc]
                · intro j hj
                  refine List.mem_append_left _ ?_
                  have hm := pass1Loop_ok_mem env request request.num_inputs 0
                    { st0 with resp := initResponse } (by rw [hp1]) j (by omega)
                    (by omega)
                  rw [hp1] at hm
                  rw [hΔ2]
                  exact List.mem_append_left _ hm
                · refine List.mem_append_left _ ?_
                  have hm := outputsLoop_ok_mem env request request.num_outputs 0
                    stA (by rw [ho]) (request.num_outputs - 1) (by omega) (by omega)
                  rw [ho] at hm
                  simpa using hm
                · intro k hk2
                  rcases List.mem_append.mp hk2 with hh | hh
                  · rw [hBtr] at hh
                    rcases List.mem_append.mp hh with hh2 | hh2
                    · exact hP1 _ hh2 k rfl
                    · exact hP2 _ hh2 k rfl
                  · simp at hh

theorem C3_witness :
    wStTx.trace = [] ∧ 1 ≤ wTx.initRequest.num_outputs ∧
    (∃ i, Event.pass2Called i ∈
      (process (benignEnv wSigF wAkF) wTx.initRequest wStTx).2.trace) ∧
    (∃ tr1 tr2,
      (process (benignEnv wSigF wAkF) wTx.initRequest wStTx).2.trace =
        tr1 ++ tr2 ∧
      (∀ j, j < wTx.initRequest.num_inputs → Event.prevtxVerified j ∈ tr1) ∧
      Event.outputConfirmed (wTx.initRequest.num_outputs - 1) true ∈ tr1 ∧
      (∀ i, Event.pass2Called i ∉ tr1)) := by
  have hrun := run_process_happy_full wSigF wAkF wTx wStTx []
    (by simp [wStTx]) wTxIn_wf (List.cons_ne_nil _ _) (List.cons_ne_nil _ _)
  have hex : ∃ i, Event.pass2Called i ∈
      (process (benignEnv wSigF wAkF) wTx.initRequest wStTx).2.trace := by
    refine ⟨0, ?_⟩
    rw [hrun]
    simp only [happyEvents]
    refine List.mem_append_left _ (List.mem_append_right _ ?_)
    refine List.mem_append_right _ ?_
    decide
  exact ⟨rfl, by decide,
    hex, C3_phase_order (benignEnv wSigF wAkF) wTx.initRequest wStTx rfl
      (by decide) hex⟩

theorem C5_witness :
    (process (benignEnv wSigF wAkF) wTx.initRequest wStTx).2.trace.count
      Event.signReset = 1 ∧
    (Event.toast "Transaction\ncanceled" false ∈
        (process (benignEnv wSigF wAkF) wTx.initRequest wStTx).2.trace ↔
      (process (benignEnv wSigF wAkF) wTx.initRequest wStTx).1 =
        Except.error Error.userAbort) :=
  C5_cleanup (benignEnv wSigF wAkF) wTx.initRequest wStTx rfl

end Signtx
